import Mathlib

/-!
Verification development for the gopptx package model (a ZIP-packaged,
multi-part XML document container).  Go source functions are shallowly
embedded as Lean functions: byte slices become `List Nat`, Go maps and
`sync.Map` stores become association lists with map semantics, machine
integers become `Int` (no arithmetic here can overflow an `int64` when the
inputs are in range, and no code path relies on wrap-around), and the
external XML encode/decode collaborators (package `encoding/xml`) are
parameters of the embedding, as the specification treats them as external
collaborators reached only through a decode contract.
-/

set_option maxHeartbeats 1000000
set_option autoImplicit false

/-- Association list used to embed Go maps and `sync.Map` stores.  Lookup
returns the binding introduced by the most recent `mapStore`. -/
def mapLoad {α β : Type} [DecidableEq α] (m : List (α × β)) (k : α) : Option β :=
  match m with
  | [] => none
  | (k₀, v₀) :: rest => if k₀ = k then some v₀ else mapLoad rest k

/-- Store a key/value pair: replaces the binding if the key is present,
otherwise appends it (Go map assignment / `sync.Map.Store`). -/
def mapStore {α β : Type} [DecidableEq α] (m : List (α × β)) (k : α) (v : β) :
    List (α × β) :=
  match m with
  | [] => [(k, v)]
  | (k₀, v₀) :: rest =>
      if k₀ = k then (k, v) :: rest else (k₀, v₀) :: mapStore rest k v

/-- Delete every binding of a key (Go `delete` / `sync.Map.Delete`). -/
def mapDelete {α β : Type} [DecidableEq α] (m : List (α × β)) (k : α) :
    List (α × β) :=
  m.filter (fun e => e.1 ≠ k)

/-- Leftmost occurrence index of `pat` in `s` (the Go standard library
function `bytes.Index`); `none` stands for the Go return value -1.  An
empty pattern matches at index 0. -/
def bIndex (s pat : List Nat) : Option Nat :=
  if pat.isPrefixOf s then some 0
  else
    match s with
    | [] => none
    | _ :: t => (bIndex t pat).map (fun i => i + 1)

/-- Fuel-driven helper for `countOcc`. -/
def countOccAux (pat : List Nat) : Nat → List Nat → Nat
  | 0, _ => 0
  | fuel + 1, s =>
      match bIndex s pat with
      | none => 0
      | some w => 1 + countOccAux pat fuel (s.drop (w + pat.length))

/-- Number of leftmost non-overlapping occurrences of a non-empty pattern
(the Go standard library function `bytes.Count` restricted to non-empty
separators).  The fuel `s.length + 1` suffices because every occurrence of
a non-empty pattern consumes at least one byte. -/
def countOcc (s pat : List Nat) : Nat := countOccAux pat (s.length + 1) s

/-- Functional form of the in-place replacement loop of `bytesReplace`
(run when `len(target) ≤ len(source)`).  The Go loop copies into a prefix
of `s` it has already consumed (the write index never passes the read
index because the target is no longer than the source), so its result is
determined by the original contents of `s`, which is what this pure
recursion computes. -/
def replaceCore (source target : List Nat) : Nat → List Nat → List Nat
  | 0, s => s
  | n + 1, s =>
      match bIndex s source with
      | none => s
      | some w =>
          s.take w ++ target ++ replaceCore source target n (s.drop (w + source.length))

/-- Continuation-byte test for UTF-8 decoding (0x80–0xBF). -/
def utf8Follow (b : Nat) : Bool := decide (128 ≤ b) && decide (b ≤ 191)

/-- Accepted range of the second byte of a multi-byte UTF-8 sequence,
depending on the first byte (per the Go `unicode/utf8` accept table). -/
def utf8Accept2 (b0 b1 : Nat) : Bool :=
  if b0 = 224 then decide (160 ≤ b1) && decide (b1 ≤ 191)
  else if b0 = 237 then decide (128 ≤ b1) && decide (b1 ≤ 159)
  else if b0 = 240 then decide (144 ≤ b1) && decide (b1 ≤ 191)
  else if b0 = 244 then decide (128 ≤ b1) && decide (b1 ≤ 143)
  else utf8Follow b1

/-- Width in bytes of the first rune of `s` (the Go standard library
function `utf8.DecodeRune`): 0 on empty input, 1 for ASCII and for any
invalid or truncated sequence, otherwise the encoded length. -/
def utf8RuneWidth (s : List Nat) : Nat :=
  match s with
  | [] => 0
  | b0 :: rest =>
      if b0 < 128 then 1
      else if b0 < 194 then 1
      else if b0 ≤ 223 then
        match rest with
        | b1 :: _ => if utf8Follow b1 then 2 else 1
        | [] => 1
      else if b0 ≤ 239 then
        match rest with
        | b1 :: b2 :: _ => if utf8Accept2 b0 b1 && utf8Follow b2 then 3 else 1
        | _ => 1
      else if b0 ≤ 244 then
        match rest with
        | b1 :: b2 :: b3 :: _ =>
            if utf8Accept2 b0 b1 && utf8Follow b2 && utf8Follow b3 then 4 else 1
        | _ => 1
      else 1

/-- Fuel-driven helper for `utf8RuneCount`. -/
def utf8RuneCountAux : Nat → List Nat → Nat
  | 0, _ => 0
  | _, [] => 0
  | fuel + 1, s => 1 + utf8RuneCountAux fuel (s.drop (utf8RuneWidth s))

/-- Number of runes in `s` (the Go standard library function
`utf8.RuneCount`); every step consumes at least one byte. -/
def utf8RuneCount (s : List Nat) : Nat := utf8RuneCountAux s.length s

/-- Main loop of the Go standard library function `bytes.Replace`: `k`
replacements remain; for an empty pattern the match position is 0 on the
first iteration and one rune further on every later one. -/
def goRepCore (old new : List Nat) : Nat → Bool → List Nat → List Nat
  | 0, _, s => s
  | k + 1, isFirst, s =>
      let j := if old.isEmpty then (if isFirst then 0 else utf8RuneWidth s)
               else (bIndex s old).getD 0
      s.take j ++ new ++ goRepCore old new k false (s.drop (j + old.length))

/-- Model of the Go standard library function `bytes.Replace` (the
external collaborator that `bytesReplace` delegates to when the target is
longer than the source): replaces the first `n` leftmost non-overlapping
occurrences of `old` (all of them when `n` is negative); an empty `old`
matches before every UTF-8 rune and at the end of `s`. -/
def goBytesReplace (s old new : List Nat) (n : Int) : List Nat :=
  let m : Nat :=
    if n = 0 then 0
    else if old.isEmpty then utf8RuneCount s + 1 else countOcc s old
  if m = 0 then s
  else
    let n₁ : Nat := if n < 0 ∨ (m : Int) < n then m else n.toNat
    goRepCore old new n₁ true s

/-- Embedding of `bytesReplace` (the custom replacement routine of the
repository): delegates to `bytes.Replace` when the target is strictly
longer than the source, otherwise runs the in-place loop with fuel `n`
(or `len(s)` when `n` is negative). -/
def bytesReplace (s source target : List Nat) (n : Int) : List Nat :=
  if n = 0 then s
  else if source.length < target.length then goBytesReplace s source target n
  else replaceCore source target (if n < 0 then s.length else n.toNat) s

/-- Reference loop for `bytesReplaceSpec`: `k` replacements remain; an
empty source matches before every byte and at the end. -/
def specCore (source target : List Nat) : Nat → List Nat → List Nat
  | 0, s => s
  | k + 1, s =>
      match bIndex s source with
      | none => s
      | some w =>
          if source.isEmpty then
            match s.drop w with
            | [] => s.take w ++ target
            | c :: rest => s.take w ++ target ++ c :: specCore source target k rest
          else
            s.take w ++ target ++ specCore source target k (s.drop (w + source.length))

/-- Reference definition following the claim's words (byte-level standard
replacement semantics): the first `n` non-overlapping leftmost occurrences
of `source` replaced by `target`, all occurrences when `n` is negative,
and `s` unchanged when `n` is zero or `source` does not occur. -/
def bytesReplaceSpec (s source target : List Nat) (n : Int) : List Nat :=
  if n = 0 then s
  else specCore source target (if n < 0 then s.length + 1 else n.toNat) s

/-- Byte image of an ASCII string constant. -/
def asciiBytes (s : String) : List Nat := s.data.map Char.toNat

/-- Prefix test on strings (Go `strings.HasPrefix` /
`String.startsWith`), computed structurally over the character lists. -/
def strStartsWith (s pre : String) : Bool := pre.data.isPrefixOf s.data

/-- Replacement of every backslash by a forward slash (the Go calls
`strings.ReplaceAll(·, "\\", "/")`, whose pattern is a single
character). -/
def slashify (s : String) : String :=
  String.mk (s.data.map (fun c => if c = '\\' then '/' else c))

/-- ASCII lower-casing (Go `strings.ToLower`; the names compared here are
ASCII, where the two agree). -/
def asciiLowerStr (s : String) : String := String.mk (s.data.map Char.toLower)

/-- Helper of `splitChar`. -/
def splitCharAux (sep : Char) : List Char → List Char → List String
  | [], cur => [String.mk cur.reverse]
  | c :: rest, cur =>
      if c = sep then String.mk cur.reverse :: splitCharAux sep rest []
      else splitCharAux sep rest (c :: cur)

/-- Split on a single separator character (Go `strings.Split` /
`String.splitOn` for a one-character separator). -/
def splitChar (s : String) (sep : Char) : List String := splitCharAux sep s.data []

/-- Strict namespace URI for document-properties variant types (xml.go). -/
def StrictNameSpaceDocumentPropertiesVariantTypes : String :=
  "http://purl.oclc.org/ooxml/officeDocument/docPropsVTypes"

/-- Transitional namespace URI for document-properties variant types
(value of the `NameSpaceDocumentPropertiesVariantTypes` attribute in
xml.go). -/
def NameSpaceDocumentPropertiesVariantTypesValue : String :=
  "http://schemas.openxmlformats.org/officeDocument/2006/docPropsVTypes"

/-- Strict namespace URI for DrawingML (xml.go). -/
def StrictNameSpaceDrawingMLMain : String :=
  "http://purl.oclc.org/ooxml/drawingml/main"

/-- Transitional namespace URI for DrawingML (xml.go). -/
def NameSpaceDrawingMLMain : String :=
  "http://schemas.openxmlformats.org/drawingml/2006/main"

/-- Strict namespace URI for extended properties (xml.go). -/
def StrictNameSpaceExtendedProperties : String :=
  "http://purl.oclc.org/ooxml/officeDocument/extendedProperties"

/-- Transitional namespace URI for extended properties (xml.go). -/
def NameSpaceExtendedProperties : String :=
  "http://schemas.openxmlformats.org/officeDocument/2006/extended-properties"

/-- Strict namespace URI for PresentationML (xml.go). -/
def StrictNameSpacePresentationMLMain : String :=
  "http://purl.oclc.org/ooxml/presentationml/main"

/-- Transitional namespace URI for PresentationML (value of the
`NameSpacePresentationML` attribute in xml.go). -/
def NameSpacePresentationMLValue : String :=
  "http://schemas.openxmlformats.org/presentationml/2006/main"

/-- Embedding of `namespaceStrictToTransitional` (src/unnamed/part_002):
replaces all occurrences of each of the four strict namespace URIs with
its transitional counterpart.  The Go code ranges over a four-entry map
literal whose iteration order is unspecified; the model applies the four
substitutions in the order of the map literal in the source. -/
def namespaceStrictToTransitional (content : List Nat) : List Nat :=
  let c₁ := bytesReplace content (asciiBytes StrictNameSpaceDocumentPropertiesVariantTypes)
    (asciiBytes NameSpaceDocumentPropertiesVariantTypesValue) (-1)
  let c₂ := bytesReplace c₁ (asciiBytes StrictNameSpaceDrawingMLMain)
    (asciiBytes NameSpaceDrawingMLMain) (-1)
  let c₃ := bytesReplace c₂ (asciiBytes StrictNameSpaceExtendedProperties)
    (asciiBytes NameSpaceExtendedProperties) (-1)
  bytesReplace c₃ (asciiBytes StrictNameSpacePresentationMLMain)
    (asciiBytes NameSpacePresentationMLValue) (-1)

/-- Error values returned by the embedded operations (src/unnamed/part_001
and pass-through I/O outcomes). -/
inductive GoErr where
  | errOptionsUnzipSizeLimit : GoErr
  | unzipSizeLimitExceeded (limit : Int) : GoErr
  | errSlideNotExist (slideID : Int) : GoErr
  | errSlideNameBlank : GoErr
  | ioError : GoErr
  | shortWrite : GoErr
deriving DecidableEq

/-- Configuration record (gopptx.go `Options`).  The two size ceilings and
the temp directory are the fields the modelled core reads; the remaining
fields (password, date patterns, calc iterations) are inert for these
operations. -/
structure Options where
  password : String
  unzipSizeLimit : Int
  unzipXMLSizeLimit : Int
  tmpDir : String
deriving DecidableEq

/-- Default total uncompressed-size ceiling, `1000 << 24` (xml.go
`UnzipSizeLimit`). -/
def UnzipSizeLimit : Int := 1000 * 16777216

/-- Default per-entry overflow threshold, `1 << 24` (xml.go
`StreamChunkSize`). -/
def StreamChunkSize : Int := 16777216

/-- Embedding of `checkOpenReaderOptions` (gopptx.go): derives a missing
size field from the other and rejects an XML limit larger than the total
limit. -/
def checkOpenReaderOptions (o : Options) : Option GoErr × Options :=
  let o₁ :=
    if o.unzipSizeLimit = 0 then
      let oA := {o with unzipSizeLimit := UnzipSizeLimit}
      if oA.unzipXMLSizeLimit > oA.unzipSizeLimit then
        {oA with unzipSizeLimit := oA.unzipXMLSizeLimit}
      else oA
    else o
  let o₂ :=
    if o₁.unzipXMLSizeLimit = 0 then
      let oB := {o₁ with unzipXMLSizeLimit := StreamChunkSize}
      if oB.unzipSizeLimit < oB.unzipXMLSizeLimit then
        {oB with unzipXMLSizeLimit := oB.unzipSizeLimit}
      else oB
    else o₁
  if o₂.unzipXMLSizeLimit > o₂.unzipSizeLimit then
    (some GoErr.errOptionsUnzipSizeLimit, o₂)
  else (none, o₂)

/-- Backing temp file of a `bufferedWriter`: its name and current
contents. -/
structure TmpFile where
  name : String
  content : List Nat
deriving DecidableEq

/-- Embedding of `bufferedWriter` (stream.go): an in-memory buffer plus an
optional backing temp file. -/
structure bufferedWriter where
  tmpDir : String
  tmp : Option TmpFile
  buf : List Nat
deriving DecidableEq

/-- Embedding of `bufferedWriter.Flush` (stream.go).  The write of the
buffered bytes to the backing file is an external file-system operation
whose outcome is a parameter: `m` bytes were consumed before the write
finished, `ok` reports success.  Per the `io.Writer` contract honoured by
`os.File.Write`, `m ≤ len(buf)` and failure is reported exactly when
`m < len(buf)`; `bytes.Buffer.WriteTo` advances the buffer read offset by
`m` even when the write fails, and reports `io.ErrShortWrite` when a
nil-error write consumed fewer than `len(buf)` bytes. -/
def bufferedWriter.Flush (bw : bufferedWriter) (m : Nat) (ok : Bool) :
    Option GoErr × bufferedWriter :=
  match bw.tmp with
  | none => (none, bw)
  | some t =>
      if bw.buf.length = 0 then (none, bw)
      else
        let bw₁ : bufferedWriter :=
          {bw with buf := bw.buf.drop m,
                   tmp := some {t with content := t.content ++ bw.buf.take m}}
        if ok = false then (some GoErr.ioError, bw₁)
        else if m ≠ bw.buf.length then (some GoErr.shortWrite, bw₁)
        else (none, {bw₁ with buf := []})

/-- An entry of the source archive as visible to `ReadZipReader`: its
name, the uncompressed size reported by `FileInfo().Size()`, whether it is
a directory, its contents (what `readFile` yields for it), and the
outcome of `unzipToTemp` (the created temp-file name, empty when creation
failed immediately, and whether any error occurred). -/
structure ZipEntry where
  name : String
  size : Int
  isDir : Bool
  content : List Nat
  tmpName : String
  tmpErr : Bool
deriving DecidableEq

/-- Accumulator of the `ReadZipReader` loop. -/
structure RZAcc where
  tempFiles : List (String × String)
  fileList : List (String × List Nat)
  slides : Int
  unzipSize : Int
deriving DecidableEq

/-- Result of `ReadZipReader`: the accumulated state and the error. -/
structure RZResult where
  acc : RZAcc
  err : Option GoErr
deriving DecidableEq

/-- Per-entry routing of the `ReadZipReader` loop, taken when the size
check passed: normalize the entry name (backslashes to slashes, the
content-types part name case-folded to canonical form), count
slide-prefixed entries, route an oversized slide entry to the temp-file
store (buffering it anyway when `unzipToTemp` failed), and buffer every
other entry. -/
def readZipStep (opt : Options) (acc : RZAcc) (e : ZipEntry) : RZAcc :=
  let fn₀ := slashify e.name
  let fileName :=
    if asciiLowerStr fn₀ = "[content_types].xml" then "[Content_Types].xml" else fn₀
  let acc₁ := {acc with unzipSize := acc.unzipSize + e.size}
  let slideHit := strStartsWith (asciiLowerStr fileName) "ppt/slides/slide"
  let acc₂ := if slideHit then {acc₁ with slides := acc₁.slides + 1} else acc₁
  let overflow := slideHit && decide (e.size > opt.unzipXMLSizeLimit) && !e.isDir
  let acc₃ :=
    if overflow && !(e.tmpName == "") then
      {acc₂ with tempFiles := mapStore acc₂.tempFiles fileName e.tmpName}
    else acc₂
  if overflow && !e.tmpErr then acc₃
  else {acc₃ with fileList := mapStore acc₃.fileList fileName e.content}

/-- Iterative body of `ReadZipReader` (src/unnamed/part_002): processes
archive entries in order, accumulating the running uncompressed-size
total and failing with the size-limit error as soon as it exceeds the
configured limit; otherwise the entry is routed by `readZipStep`. -/
def readZipLoop (opt : Options) : RZAcc → List ZipEntry → RZResult
  | acc, [] => ⟨acc, none⟩
  | acc, e :: rest =>
      if acc.unzipSize + e.size > opt.unzipSizeLimit then
        ⟨{acc with unzipSize := acc.unzipSize + e.size},
          some (GoErr.unzipSizeLimitExceeded opt.unzipSizeLimit)⟩
      else readZipLoop opt (readZipStep opt acc e) rest

/-- Embedding of `ReadZipReader`: runs the entry loop from the empty
accumulator.  `readFile` never fails in the model: the archive entries
are given as values, matching an uncorrupted archive. -/
def ReadZipReader (opt : Options) (entries : List ZipEntry) : RZResult :=
  readZipLoop opt ⟨[], [], 0, 0⟩ entries

/-- Total of the uncompressed entry sizes of an archive suffix. -/
def sumSizes (l : List ZipEntry) : Int := (l.map ZipEntry.size).sum

/-- Decoded XML attribute (`encoding/xml` `xml.Attr`): namespace (the Go
`Name.Space`), local name, and value. -/
structure XAttr where
  nameSpace : String
  nameLocal : String
  value : String
deriving DecidableEq

/-- One relationship row (xmlPresentation.go `relationship`).  The Go
field `Type` is rendered `relType` (`Type` is a Lean keyword). -/
structure relationship where
  ID : String
  Target : String
  relType : String
  TargetMode : String
deriving DecidableEq

/-- Decoded relationships part (xmlPresentation.go `relationships`); its
mutex only guards concurrent access and carries no state. -/
structure relationships where
  Relationships : List relationship
deriving DecidableEq

/-- A content-type override row (src/unnamed/part_003
`contentTypeOverride`). -/
structure contentTypeOverride where
  PartName : String
  ContentType : String
deriving DecidableEq

/-- A content-type default row (src/unnamed/part_003
`contentTypeDefault`). -/
structure contentTypeDefault where
  Extension : String
  ContentType : String
deriving DecidableEq

/-- Decoded content-types part (src/unnamed/part_003 `contentTypes`). -/
structure contentTypes where
  Defaults : List contentTypeDefault
  Overrides : List contentTypeOverride
deriving DecidableEq

/-- Entry of the presentation's ordered slide id list (src/unnamed/part_004
`decodeSlideID`). -/
structure decodeSlideID where
  RelationshipID : String
  SlideID : Int
deriving DecidableEq

/-- Decoded presentation part (src/unnamed/part_004 `decodePresentation`);
the Go `Slides *decodeSlideList` pointer and its inner `Slide` list are
flattened into one list.  The master-slide list, slide sizes and
alternate content are inert data the modelled operations never touch. -/
structure decodePresentation where
  Slides : List decodeSlideID
deriving DecidableEq

/-- Cached decoded slide part.  Its XML fields are inert schema data that
the modelled operations never inspect; values of this type are produced
by the decoder parameters of the embedding.  The two source snapshots
name this type `Slide` (gopptx.go) and `decodeSlide` (slide.go). -/
structure Slide where
  raw : List Nat
deriving DecidableEq

/-- Alternative source name of the cached slide structure (slide.go). -/
abbrev decodeSlide : Type := Slide

/-- Embedding of the `File` aggregate (gopptx.go): every Go map or
`sync.Map` becomes an association list keyed by part path.  `slideMap`
follows the numeric-id form used by all the mutation entry points in
slide.go (the snapshot of the struct declaration in gopptx.go keys the
same map by a name string, paired with a blank-name guard; the two
snapshots disagree, and the numeric form is the one the mutation and
lookup code uses). -/
structure File where
  options : Options
  tempFiles : List (String × String)
  slideMap : List (Int × String)
  streams : List (String × List Nat)
  xmlAttr : List (String × List XAttr)
  ContentTypes : Option contentTypes
  Path : String
  Pkg : List (String × List Nat)
  Presentation : Option decodePresentation
  Relationships : List (String × relationships)
  Slide : List (String × Slide)
  SlideCount : Int
  checked : List (String × Bool)
deriving DecidableEq

/-- External collaborators of the embedding: the `encoding/xml` decoders,
the embedded template files under `templates/` (not among the provided
sources), and the file system behind the temp-file store.  The
specification treats all of these as external to the core, reached only
through a decode / raw-bytes contract. -/
structure ExtEnv where
  decodeContentTypesXML : List Nat → contentTypes
  decodeRelsXML : List Nat → relationships
  decodePresentationXML : List Nat → decodePresentation
  decodeSlideXML : List Nat → Slide
  rootElementAttrs : List Nat → List XAttr
  templateSlideDecoded : Slide
  templateSlideRelsBytes : List Nat
  xmlHeaderBytes : List Nat
  tempFileContent : String → Option (List Nat)

/-- Content type of a slide part (xml.go `ContentTypeSlideML`). -/
def ContentTypeSlideML : String :=
  "application/vnd.openxmlformats-officedocument.presentationml.slide+xml"

/-- Content type of a relationships part (xml.go
`ContentTypeRelationships`). -/
def ContentTypeRelationships : String :=
  "application/vnd.openxmlformats-package.relationships+xml"

/-- Relationship type of the office-document root relationship (xml.go). -/
def SourceRelationshipOfficeDocument : String :=
  "http://schemas.openxmlformats.org/officeDocument/2006/relationships/officeDocument"

/-- Relationship type of a slide relationship (xml.go). -/
def SourceRelationshipSlide : String :=
  "http://schemas.openxmlformats.org/officeDocument/2006/relationships/slide"

/-- Path of the content-types part (xml.go). -/
def defaultXMLPathContentTypes : String := "[Content_Types].xml"

/-- Path of the root relationships part (xml.go). -/
def defaultXMLPathRels : String := "_rels/.rels"

/-- Floor for slide id allocation (xml.go `defaultXMLSlideID = 256`). -/
def defaultXMLSlideID : Int := 256

/-- The PresentationML namespace attribute (xml.go
`NameSpacePresentationML`). -/
def NameSpacePresentationMLAttr : XAttr :=
  ⟨"xmlns", "p", NameSpacePresentationMLValue⟩

/-- The relationships namespace attribute (xml.go `SourceRelationship`). -/
def SourceRelationshipAttr : XAttr :=
  ⟨"xmlns", "r", "http://schemas.openxmlformats.org/officeDocument/2006/relationships"⟩

/-- The markup-compatibility namespace attribute (xml.go
`SourceRelationshipCompatibility`). -/
def SourceRelationshipCompatibilityAttr : XAttr :=
  ⟨"xmlns", "mc", "http://schemas.openxmlformats.org/markup-compatibility/2006"⟩

/-- Go `path/filepath.Clean` for slash-separated paths (on Linux
`filepath.Clean` agrees with `path.Clean`): drops empty and `.`
components, resolves `..`, keeps rootedness, and yields `.` for an empty
result. -/
def goClean (p : String) : String :=
  if p = "" then "." else
  let abs := strStartsWith p "/"
  let comps := (splitChar p '/').foldl
    (fun acc c =>
      if c = "" ∨ c = "." then acc
      else if c = ".." then
        match acc with
        | [] => if abs then [] else [".."]
        | top :: rest => if top = ".." then c :: acc else rest
      else c :: acc) []
  let body := String.intercalate "/" comps.reverse
  if abs = true then "/" ++ body
  else if body = "" then "." else body

/-- Go `filepath.Split`: the part up to and including the final slash,
and the remainder. -/
def goSplit (p : String) : String × String :=
  let rev := p.data.reverse
  (String.mk (rev.dropWhile (fun c => c ≠ '/')).reverse,
   String.mk (rev.takeWhile (fun c => c ≠ '/')).reverse)

/-- Go `filepath.Dir`. -/
def goDir (p : String) : String := goClean (goSplit p).1

/-- Go `filepath.Base`. -/
def goBase (p : String) : String :=
  if p = "" then "." else
  let trimmed := (p.data.reverse.dropWhile (fun c => c = '/')).reverse
  if trimmed = [] then "/"
  else String.mk (trimmed.reverse.takeWhile (fun c => c ≠ '/')).reverse

/-- Go `filepath.Join` for three components: non-empty components joined
by slashes, then cleaned. -/
def goJoin3 (a b c : String) : String :=
  let parts := [a, b, c].filter (fun s => s ≠ "")
  if parts = [] then "" else goClean (String.intercalate "/" parts)

/-- Go `strings.TrimPrefix` (the modelled prefixes are ASCII, so the
character count of the prefix equals its byte count). -/
def goTrimPre (s pre : String) : String :=
  if strStartsWith s pre then s.drop pre.data.length else s

/-- Embedding of `readXML` (src/unnamed/part_002): resident package
bytes, else the in-memory buffer of a registered stream writer, else
empty. -/
def readXML (f : File) (name : String) : List Nat :=
  match mapLoad f.Pkg name with
  | some content => content
  | none =>
      match mapLoad f.streams name with
      | some buf => buf
      | none => []

/-- Embedding of `relsReader` (slide.go): returns the cached decoded
relationships part, decoding it from the stored bytes on first access;
`none` when the path has neither a cached structure nor stored bytes. -/
def relsReader (ext : ExtEnv) (f : File) (path : String) :
    Option relationships × File :=
  match mapLoad f.Relationships path with
  | some r => (some r, f)
  | none =>
      match mapLoad f.Pkg path with
      | some _ =>
          let c := ext.decodeRelsXML (namespaceStrictToTransitional (readXML f path))
          (some c, {f with Relationships := mapStore f.Relationships path c})
      | none => (none, f)

/-- Embedding of `getPresentationPath` (presentation.go): target of the
first office-document relationship of the root relationships part, with a
leading slash stripped. -/
def getPresentationPath (ext : ExtEnv) (f : File) : String × File :=
  match relsReader ext f defaultXMLPathRels with
  | (some rels, f₁) =>
      match rels.Relationships.find?
          (fun rel => rel.relType == SourceRelationshipOfficeDocument) with
      | some rel => (goTrimPre rel.Target "/", f₁)
      | none => ("", f₁)
  | (none, f₁) => ("", f₁)

/-- Embedding of `getPresentationRelsPath` (presentation.go). -/
def getPresentationRelsPath (ext : ExtEnv) (f : File) : String × File :=
  let r := getPresentationPath ext f
  let wbPath := r.1
  if goDir wbPath = "." then ("_rels/" ++ goBase wbPath ++ ".rels", r.2)
  else (goTrimPre (goDir wbPath ++ "/_rels/" ++ goBase wbPath ++ ".rels") "/", r.2)

/-- Embedding of `getSlidePath` (slide.go): resolves a relationship
target against the presentation part's directory, supporting both
archive-absolute (leading slash) and archive-relative target forms. -/
def getSlidePath (ext : ExtEnv) (f : File) (relTarget : String) : String × File :=
  let r := getPresentationPath ext f
  if strStartsWith relTarget "/" then
    (goTrimPre (slashify (goClean relTarget)) "/", r.2)
  else
    (goTrimPre (slashify (goClean (goDir r.1 ++ "/" ++ relTarget))) "/", r.2)

/-- Embedding of `getXMLNamespace` (src/unnamed/part_002): local name of
the first attribute whose value is the given namespace, else the
namespace itself. -/
def getXMLNamespace (space : String) (attr : List XAttr) : String :=
  match attr.find? (fun attrib => attrib.value == space) with
  | some attrib => attrib.nameLocal
  | none => space

/-- Index-carrying helper for `inStrSlice`. -/
def inStrSliceAux (x : String) (caseSensitive : Bool) : Nat → List String → Int
  | _, [] => -1
  | idx, n :: rest =>
      if caseSensitive = false ∧ x.toLower = n.toLower then (idx : Int)
      else if x = n then (idx : Int)
      else inStrSliceAux x caseSensitive (idx + 1) rest

/-- Embedding of `inStrSlice` (src/unnamed/part_002); the
case-insensitive comparison (`strings.EqualFold`) is modelled by
lower-casing, which agrees with it on the ASCII names used here. -/
def inStrSlice (a : List String) (x : String) (caseSensitive : Bool) : Int :=
  inStrSliceAux x caseSensitive 0 a

/-- Go `strings.Fields` on the space-separated token lists used by the
`Ignorable` attribute. -/
def goFields (s : String) : List String :=
  (splitChar s ' ').filter (fun t => t ≠ "")

/-- The allow-list of ignorable namespace short names
(src/unnamed/part_002 `setIgnorableNameSpace`). -/
def ignorableNSList : List String :=
  ["c14", "cdr14", "a14", "pic14", "x14", "xdr14", "x14ac", "dsp", "mso14",
   "dgm14", "x15", "x12ac", "x15ac", "xr", "xr2", "xr3", "xr4", "xr5", "xr6",
   "xr7", "xr8", "xr9", "xr10", "xr11", "xr12", "xr13", "xr14", "xr15", "x15",
   "x16", "x16r2", "mo", "mx", "mv", "o", "v"]

/-- Embedding of `setIgnorableNameSpace` (src/unnamed/part_002): merges a
namespace short name into the `Ignorable` attribute value at `index` when
it is not yet listed there and belongs to the fixed allow-list. -/
def setIgnorableNameSpace (f : File) (path : String) (index : Nat) (ns : XAttr) :
    File :=
  match mapLoad f.xmlAttr path with
  | none => f
  | some attrs =>
      match attrs.get? index with
      | none => f
      | some a =>
          if inStrSlice (goFields a.value) ns.nameLocal true = -1 ∧
              inStrSlice ignorableNSList ns.nameLocal true ≠ -1 then
            let merged := (a.value ++ " " ++ ns.nameLocal).trim
            {f with xmlAttr := mapStore f.xmlAttr path (attrs.set index {a with value := merged})}
          else f

/-- Last index of an `Ignorable` attribute in the `mc` namespace
(the `ignore` scan of `addNameSpaces`). -/
def findIgnoreIdxAux (attrs : List XAttr) : Nat → Int → List XAttr → Int
  | _, acc, [] => acc
  | i, acc, attr :: rest =>
      if attr.nameLocal == "Ignorable" && (getXMLNamespace attr.nameSpace attrs == "mc") then
        findIgnoreIdxAux attrs (i + 1) (i : Int) rest
      else findIgnoreIdxAux attrs (i + 1) acc rest

/-- Embedding of `addNameSpaces` (src/unnamed/part_002): ensures the
namespace attribute is present on the part's tracked attribute list,
adding the markup-compatibility namespace and an `Ignorable` entry as
needed. -/
def addNameSpaces (f : File) (path : String) (ns : XAttr) : File :=
  let attrs₀ := mapLoad f.xmlAttr path
  let exist :=
    match attrs₀ with
    | some attrs =>
        attrs.any (fun attr => attr.nameLocal == ns.nameLocal &&
          attr.nameSpace == ns.nameSpace)
    | none => false
  let mc :=
    match attrs₀ with
    | some attrs => attrs.any (fun attr => attr.nameLocal == "mc" && attr.nameSpace == "xmlns")
    | none => false
  let ignore : Int :=
    match attrs₀ with
    | some attrs => findIgnoreIdxAux attrs 0 (-1) attrs
    | none => -1
  if exist then f
  else
    let attrs₁ := attrs₀.getD [] ++ [ns]
    let f₁ := {f with xmlAttr := mapStore f.xmlAttr path attrs₁}
    let attrsMC := attrs₁ ++ [SourceRelationshipCompatibilityAttr]
    let st :=
      if mc = false then
        (({f₁ with xmlAttr := mapStore f₁.xmlAttr path attrsMC} : File), attrsMC)
      else (f₁, attrs₁)
    if ignore = -1 then
      let attrsIgn := st.2 ++ [⟨"mc", "Ignorable", ns.nameLocal⟩]
      {st.1 with xmlAttr := mapStore st.1.xmlAttr path attrsIgn}
    else setIgnorableNameSpace st.1 path ignore.toNat ns

/-- Embedding of `presentationReader` (presentation.go): returns the
decoded presentation, decoding it on first access (recording the
root-element attributes — `getRootElement` is XML tokenization, supplied
by the environment — and registering the relationships namespace). -/
def presentationReader (ext : ExtEnv) (f : File) : decodePresentation × File :=
  match f.Presentation with
  | some p => (p, f)
  | none =>
      let r := getPresentationPath ext f
      let wbPath := r.1
      let f₂ :=
        if (mapLoad r.2.xmlAttr wbPath).isNone then
          let attrs := ([] : List XAttr) ++
            ext.rootElementAttrs (namespaceStrictToTransitional (readXML r.2 wbPath))
          let fA := {r.2 with xmlAttr := mapStore r.2.xmlAttr wbPath attrs}
          addNameSpaces fA wbPath SourceRelationshipAttr
        else r.2
      let p := ext.decodePresentationXML (namespaceStrictToTransitional (readXML f₂ wbPath))
      (p, {f₂ with Presentation := some p})

/-- Embedding of `contentTypesReader` (slide.go): returns the decoded
content-types part, decoding it on first access. -/
def contentTypesReader (ext : ExtEnv) (f : File) : contentTypes × File :=
  match f.ContentTypes with
  | some c => (c, f)
  | none =>
      let c := ext.decodeContentTypesXML
        (namespaceStrictToTransitional (readXML f defaultXMLPathContentTypes))
      (c, {f with ContentTypes := some c})

/-- Embedding of `setContentTypes` (slide.go): appends a content-type
override row for the part. -/
def setContentTypes (ext : ExtEnv) (f : File) (partName contentType : String) :
    File :=
  let r := contentTypesReader ext f
  let ct := {r.1 with Overrides := r.1.Overrides ++ [⟨partName, contentType⟩]}
  {r.2 with ContentTypes := some ct}

/-- Modelled from the spec: `addRels` is called by `NewSlide` but its
definition is not among the provided sources.  Per §4.4 of the
specification it assigns the next `rIdN` identifier scoped to the owning
part with `N = 1 + count of existing relationships in that part`, appends
the relationship `(id, type, target, mode)`, and returns the assigned
numeric `N`. -/
def addRels (ext : ExtEnv) (f : File) (relPath relType target targetMode : String) :
    Int × File :=
  let r := relsReader ext f relPath
  let cur := r.1.getD ⟨[]⟩
  let rID : Int := (cur.Relationships.length : Int) + 1
  let updated : relationships :=
    ⟨cur.Relationships ++ [⟨"rId" ++ toString rID, target, relType, targetMode⟩]⟩
  (rID, {r.2 with Relationships := mapStore r.2.Relationships relPath updated})

/-- Embedding of `setSlide` (slide.go): registers the new slide path in
the id map, materializes the decoded slide structure from the built-in
template (`TemplateSlide`, an embedded file outside the provided sources,
supplied by the environment), records the presentation namespace
attribute, and stores the template relationships bytes. -/
def setSlide (ext : ExtEnv) (f : File) (index : Nat) (id : Int) : File :=
  let slideXMLPath := "ppt/slides/slide" ++ toString index ++ ".xml"
  let f₁ := {f with slideMap := mapStore f.slideMap id slideXMLPath}
  let f₂ := {f₁ with Slide := mapStore f₁.Slide slideXMLPath ext.templateSlideDecoded}
  let f₃ := {f₂ with xmlAttr := mapStore f₂.xmlAttr slideXMLPath [NameSpacePresentationMLAttr]}
  let relsSlideXMLPath := "ppt/slides/_rels/slide" ++ toString index ++ ".xml.rels"
  {f₃ with Pkg := mapStore f₃.Pkg relsSlideXMLPath (ext.xmlHeaderBytes ++ ext.templateSlideRelsBytes)}

/-- Embedding of `setPresentation` (presentation.go): appends the new
slide id entry to the presentation's ordered id list. -/
def setPresentation (ext : ExtEnv) (f : File) (slideID : Int) (rid : Int) : File :=
  let r := presentationReader ext f
  let p := {r.1 with Slides := r.1.Slides ++ [⟨"rId" ++ toString rid, slideID⟩]}
  {r.2 with Presentation := some p}

/-- Embedding of `NewSlide` (slide.go): allocates the new slide id by
scanning the current id list (starting from the floor 256), registers
content-type overrides for the slide part and its relationships part,
adds the presentation relationship, materializes the slide part, and
appends the id-list entry.  The Go error return is always nil here: its
only source is the XML decode of an unloaded presentation, and the
decoder parameters of the embedding are total. -/
def NewSlide (ext : ExtEnv) (f : File) : Int × File :=
  let r := presentationReader ext f
  let presentation := r.1
  let f₂ := {r.2 with SlideCount := r.2.SlideCount + 1}
  let slideID := presentation.Slides.foldl
    (fun acc s => if s.SlideID ≥ acc then s.SlideID + 1 else acc) defaultXMLSlideID
  let nextFileIndex := presentation.Slides.length + 1
  let fileName := "slide" ++ toString nextFileIndex
  let f₃ := setContentTypes ext f₂ ("/ppt/slides/_rels/" ++ fileName ++ ".xml.rels")
    ContentTypeRelationships
  let f₄ := setContentTypes ext f₃ ("/ppt/slides/" ++ fileName ++ ".xml") ContentTypeSlideML
  let rp := getPresentationRelsPath ext f₄
  let ra := addRels ext rp.2 rp.1 SourceRelationshipSlide ("slides/" ++ fileName ++ ".xml") ""
  let f₇ := setSlide ext ra.2 nextFileIndex slideID
  let f₈ := setPresentation ext f₇ slideID ra.1
  (slideID, f₈)

/-- Embedding of `GetSlideList` (slide.go). -/
def GetSlideList (ext : ExtEnv) (f : File) : List Int × File :=
  let r := presentationReader ext f
  (r.1.Slides.map (fun s => s.SlideID), r.2)

/-- Index-carrying scan of the slide list (the loop of `GetSlideIndex`). -/
def slideIdxAux (slideID : Int) : Nat → List Int → Int
  | _, [] => -1
  | i, id :: rest => if id = slideID then (i : Int) else slideIdxAux slideID (i + 1) rest

/-- Embedding of `GetSlideIndex` (slide.go): index of the slide id in the
presentation's list, or -1 when absent.  The Go error return is always
nil. -/
def GetSlideIndex (ext : ExtEnv) (f : File) (slideID : Int) : Int × File :=
  let r := GetSlideList ext f
  (slideIdxAux slideID 0 r.1, r.2)

/-- Embedding of `deleteSlideFromPresentationRels` (slide.go): removes
the first relationship with the given id from the
presentation-relationships part and returns its raw target (empty when no
relationship matches).  When the part is not loaded the Go code would
dereference a nil pointer; no modelled caller reaches that state. -/
def deleteSlideFromPresentationRels (ext : ExtEnv) (f : File) (rID : String) :
    String × File :=
  let rp := getPresentationRelsPath ext f
  let r := relsReader ext rp.2 rp.1
  match r.1 with
  | none => ("", r.2)
  | some rels =>
      match rels.Relationships.find? (fun v => v.ID == rID) with
      | some v =>
          let updated : relationships := ⟨rels.Relationships.eraseP (fun u => u.ID == rID)⟩
          (v.Target, {r.2 with Relationships := mapStore r.2.Relationships rp.1 updated})
      | none => ("", r.2)

/-- Modelled from the spec: `removeContentTypesPart` is called by
`DeleteSlide` but its definition is not among the provided sources.  Per
§4.4/§4.5 of the specification it removes the content-type override rows
of the given part; the part name is normalized to the package-absolute
form used by override rows (callers pass document-relative targets such
as `slides/slide2.xml` while override rows are recorded as
`/ppt/...`-absolute names), and removal is an idempotent no-op when no
row matches.  The content-type argument mirrors the Go call sites and
does not affect which rows are removed (the spec keys removal by
path). -/
def removeContentTypesPart (ext : ExtEnv) (f : File) (contentType partName : String) :
    File :=
  let r := contentTypesReader ext f
  let partName₁ := if strStartsWith partName "/" then partName else "/ppt/" ++ partName
  let ct := {r.1 with Overrides := r.1.Overrides.filter (fun o => o.PartName ≠ partName₁)}
  {r.2 with ContentTypes := some ct}

/-- The inner relationship scan of `DeleteSlide` (slide.go lines
241-246): on an id match, resolve the slide path and derive its
relationships part path; the loop does not break, so a later match would
overwrite an earlier one. -/
def deleteSlideScan (ext : ExtEnv) (rid : String)
    (st : (String × String) × File) (rel : relationship) :
    (String × String) × File :=
  if rel.ID == rid then
    let rs := getSlidePath ext st.2 rel.Target
    ((rs.1, "ppt/slides/_rels/" ++ goTrimPre rs.1 "ppt/slides/" ++ ".rels"), rs.2)
  else st

/-- Embedding of `DeleteSlide` (slide.go).  The Go range loop mutates the
slice it iterates over; with distinct slide ids (a hypothesis of every
theorem below) the body fires exactly once, for the first matching entry,
which is what this embedding performs.  The (slideXML, rels) pair keeps
the last matching relationship, mirroring the Go inner loop that does not
break. -/
def DeleteSlide (ext : ExtEnv) (f : File) (slideID : Int) : Option GoErr × File :=
  let ri := GetSlideIndex ext f slideID
  if ri.2.SlideCount = 1 ∨ ri.1 = -1 then (none, ri.2)
  else
    let rp := presentationReader ext ri.2
    let presentation := rp.1
    let rrp := getPresentationRelsPath ext rp.2
    let rr := relsReader ext rrp.2 rrp.1
    match presentation.Slides.find? (fun v => v.SlideID == slideID) with
    | none => (none, rr.2)
    | some v =>
        let p₁ := {presentation with Slides := presentation.Slides.eraseP (fun u => u.SlideID == slideID)}
        let f₅ := {rr.2 with Presentation := some p₁}
        let st :=
          match rr.1 with
          | some rels =>
              rels.Relationships.foldl (deleteSlideScan ext v.RelationshipID)
                (("", ""), f₅)
          | none => (("", ""), f₅)
        let slideXML := st.1.1
        let rels := st.1.2
        let rt := deleteSlideFromPresentationRels ext st.2 v.RelationshipID
        let target := rt.1
        let f₈ := removeContentTypesPart ext rt.2 ContentTypeSlideML target
        let relsCT := goJoin3 (goDir target) "_rels" (goBase target ++ ".rels")
        let f₉ := removeContentTypesPart ext f₈ ContentTypeRelationships relsCT
        (none, {f₉ with
          slideMap := mapDelete f₉.slideMap v.SlideID,
          Pkg := mapDelete (mapDelete f₉.Pkg slideXML) rels,
          Relationships := mapDelete f₉.Relationships rels,
          Slide := mapDelete f₉.Slide slideXML,
          xmlAttr := mapDelete f₉.xmlAttr slideXML,
          SlideCount := f₉.SlideCount - 1})

/-- Embedding of `readBytes` (src/unnamed/part_002): resident bytes,
else read-back from the temp-file store, caching the bytes into the
package store.  When a path is in neither store the Go code would
dereference the nil file handle `readTemp` returns; no modelled caller
reaches that state. -/
def readBytes (ext : ExtEnv) (f : File) (name : String) : List Nat × File :=
  let content := readXML f name
  if content.length ≠ 0 then (content, f)
  else
    match mapLoad f.tempFiles name with
    | none => (content, f)
    | some tmpPath =>
        match ext.tempFileContent tmpPath with
        | none => (content, f)
        | some bytes => (bytes, {f with Pkg := mapStore f.Pkg name bytes})

/-- Attribute-recording step of the `slideReader` decode branch: when no
root-element attributes are tracked for the path, read the part bytes and
record the root attributes the XML tokenizer yields. -/
def slideReaderAttrStep (ext : ExtEnv) (f : File) (path : String) : File :=
  if (mapLoad f.xmlAttr path).isNone then
    let rb := readBytes ext f path
    let attrs := ([] : List XAttr) ++
      ext.rootElementAttrs (namespaceStrictToTransitional rb.1)
    {rb.2 with xmlAttr := mapStore rb.2.xmlAttr path attrs}
  else f

/-- Checked-marking step of the `slideReader` decode branch. -/
def slideReaderCheckStep (f : File) (path : String) : File :=
  if (mapLoad f.checked path).isNone then
    {f with checked := mapStore f.checked path true}
  else f

/-- Decode branch of `slideReader`, run on a cache miss: record the
root-element attributes when absent, decode the part bytes, mark the path
checked, and memoize the decoded structure. -/
def slideReaderDecode (ext : ExtEnv) (f : File) (path : String) : Slide × File :=
  let f₁ := slideReaderAttrStep ext f path
  let rb₁ := readBytes ext f₁ path
  let slide := ext.decodeSlideXML (namespaceStrictToTransitional rb₁.1)
  let f₃ := slideReaderCheckStep rb₁.2 path
  (slide, {f₃ with Slide := mapStore f₃.Slide path slide})

/-- Embedding of `slideReader` (gopptx.go): memoized decode of a slide
part.  The id-keyed lookup follows the numeric slide map (see `File`);
the blank-name guard (`checkSlideName`) of the string-keyed snapshot has
no numeric counterpart and never fires for ids present in the map. -/
def slideReader (ext : ExtEnv) (f : File) (slideID : Int) :
    Except GoErr Slide × File :=
  match mapLoad f.slideMap slideID with
  | none => (Except.error (GoErr.errSlideNotExist slideID), f)
  | some path =>
      match mapLoad f.Slide path with
      | some s => (Except.ok s, f)
      | none =>
          let r := slideReaderDecode ext f path
          (Except.ok r.1, r.2)

/-- Reverse-lexicographic order on path strings, as produced by the Go
call `sort.Sort(sort.Reverse(sort.StringSlice(...)))`. -/
def revLexLe (a b : String) : Prop := b ≤ a

instance : DecidableRel revLexLe := fun a b => inferInstanceAs (Decidable (b ≤ a))

instance : IsTotal String revLexLe := ⟨fun a b => le_total b a⟩

instance : IsTrans String revLexLe := ⟨fun a b c h₁ h₂ => le_trans h₂ h₁⟩

instance : IsAntisymm String revLexLe := ⟨fun a b h₁ h₂ => le_antisymm h₂ h₁⟩

/-- Descending sort of the collected path strings.  The Go sort is
unstable, but on string values equal elements are indistinguishable, so
its output sequence is the sorted multiset that insertion sort
computes. -/
def sortDesc (l : List String) : List String := List.insertionSort revLexLe l

/-- Entry-creation sequence of `writeToZip` (file.go), starting after the
part writers (`contentTypesWriter`, `slideWriter`, `relsWriter`,
`themeWriter`) have re-encoded their parts: those writers only store keys
into `Pkg`, and `f` here is the state they produced.  `pkgEnum` and
`tempEnum` are the orders in which the unordered `sync.Map.Range`
enumerations yield the keys of `Pkg` and of the temp-file store; the
collected keys are sorted descending before entries are created, stream
parts first, then resident parts, then unshadowed temp-file parts. -/
def writeToZipEntries (f : File) (pkgEnum tempEnum : List String) : List String :=
  f.streams.map (fun e => e.1) ++
  sortDesc (pkgEnum.filter (fun path => (mapLoad f.streams path).isNone)) ++
  sortDesc (tempEnum.filter (fun path => (mapLoad f.Pkg path).isNone))

/-- A concrete decoder environment used to evaluate the embedding on
closed inputs in the witnesses below. -/
def extUnit : ExtEnv :=
  ⟨fun _ => ⟨[], []⟩, fun _ => ⟨[]⟩, fun _ => ⟨[]⟩, fun _ => ⟨[]⟩, fun _ => [],
   ⟨[7]⟩, [9], [8], fun _ => none⟩

/-- A root relationships part locating the presentation at
`ppt/presentation.xml` (the standard package layout), used by the closed
scenarios below. -/
def exRootRels : relationships :=
  ⟨[⟨"rId1", "ppt/presentation.xml", SourceRelationshipOfficeDocument, ""⟩]⟩

/-- A presentation-relationships part with a master, a theme and two
slide relationships, used by the closed scenarios below. -/
def exPresRels : relationships :=
  ⟨[⟨"rId1", "slideMasters/slideMaster1.xml", "m", ""⟩,
    ⟨"rId2", "theme/theme1.xml", "t", ""⟩,
    ⟨"rId3", "slides/slide1.xml", SourceRelationshipSlide, ""⟩,
    ⟨"rId4", "slides/slide2.xml", SourceRelationshipSlide, ""⟩]⟩

/-- A two-slide opened file (ids 256 and 257) in the standard package
layout, used by the closed scenarios below. -/
def exC1File : File :=
  { options := ⟨"", 0, 0, ""⟩
    tempFiles := []
    slideMap := [(256, "ppt/slides/slide1.xml"), (257, "ppt/slides/slide2.xml")]
    streams := []
    xmlAttr := []
    ContentTypes := some ⟨[], [⟨"/ppt/slides/slide1.xml", ContentTypeSlideML⟩,
      ⟨"/ppt/slides/slide2.xml", ContentTypeSlideML⟩,
      ⟨"/ppt/slides/_rels/slide1.xml.rels", ContentTypeRelationships⟩,
      ⟨"/ppt/slides/_rels/slide2.xml.rels", ContentTypeRelationships⟩]⟩
    Path := ""
    Pkg := [("ppt/slides/slide1.xml", [3]), ("ppt/slides/slide2.xml", [4]),
            ("ppt/slides/_rels/slide1.xml.rels", [5]),
            ("ppt/slides/_rels/slide2.xml.rels", [6])]
    Presentation := some ⟨[⟨"rId3", 256⟩, ⟨"rId4", 257⟩]⟩
    Relationships := [("_rels/.rels", exRootRels),
      ("ppt/_rels/presentation.xml.rels", exPresRels)]
    Slide := []
    SlideCount := 2
    checked := [] }

/-- The slide id `NewSlide` allocates: one past the largest existing id,
with floor `defaultXMLSlideID` (the id scan of slide.go lines 30-35). -/
def newSlideID (p : decodePresentation) : Int :=
  p.Slides.foldl (fun acc s => if s.SlideID ≥ acc then s.SlideID + 1 else acc)
    defaultXMLSlideID

/-- The file state `NewSlide` produces from a fully-loaded state (all
parts cached, the standard package layout): the two appended content-type
override rows, the appended presentation relationship, the new slide
part entries, and the appended slide id list entry. -/
def newSlideResult (ext : ExtEnv) (f : File) (p : decodePresentation)
    (ct0 : contentTypes) (prels : relationships) : File :=
  let fn := "slide" ++ toString (p.Slides.length + 1)
  let rid : Int := (prels.Relationships.length : Int) + 1
  let ct2 := {ct0 with Overrides :=
    (ct0.Overrides ++ [⟨"/ppt/slides/_rels/" ++ fn ++ ".xml.rels", ContentTypeRelationships⟩]) ++
    [⟨"/ppt/slides/" ++ fn ++ ".xml", ContentTypeSlideML⟩]}
  let prels₂ : relationships := ⟨prels.Relationships ++
    [⟨"rId" ++ toString rid, "slides/" ++ fn ++ ".xml", SourceRelationshipSlide, ""⟩]⟩
  let p₂ := {p with Slides := p.Slides ++ [⟨"rId" ++ toString rid, newSlideID p⟩]}
  {f with
    SlideCount := f.SlideCount + 1,
    ContentTypes := some ct2,
    Relationships := mapStore f.Relationships "ppt/_rels/presentation.xml.rels" prels₂,
    slideMap := mapStore f.slideMap (newSlideID p)
      ("ppt/slides/slide" ++ toString (p.Slides.length + 1) ++ ".xml"),
    Slide := mapStore f.Slide ("ppt/slides/slide" ++ toString (p.Slides.length + 1) ++ ".xml")
      ext.templateSlideDecoded,
    xmlAttr := mapStore f.xmlAttr
      ("ppt/slides/slide" ++ toString (p.Slides.length + 1) ++ ".xml")
      [NameSpacePresentationMLAttr],
    Pkg := mapStore f.Pkg
      ("ppt/slides/_rels/slide" ++ toString (p.Slides.length + 1) ++ ".xml.rels")
      (ext.xmlHeaderBytes ++ ext.templateSlideRelsBytes),
    Presentation := some p₂}

/-- The file state `DeleteSlide` produces from a fully-loaded state when
the deleted slide's relationship target is the standard-layout relative
form `slides/<X>`: the id-list entry, the presentation relationship, the
two content-type override rows, and the slide part's stored and cached
entries are all removed. -/
def deleteSlideResult (f : File) (p : decodePresentation) (ct0 : contentTypes)
    (prels : relationships) (sid : Int) (rid : String) (X : String) : File :=
  let slideXML := "ppt/slides/" ++ X
  let rels := ("ppt/slides/_rels/" ++ X) ++ ".rels"
  let p₁ := {p with Slides := p.Slides.eraseP (fun u => u.SlideID == sid)}
  let prels₁ : relationships := ⟨prels.Relationships.eraseP (fun u => u.ID == rid)⟩
  let ct₁ := {ct0 with Overrides := ((ct0.Overrides.filter
    (fun o => o.PartName ≠ "/ppt/slides/" ++ X)).filter
    (fun o => o.PartName ≠ "/ppt/slides/_rels/" ++ (X ++ ".rels")))}
  {f with
    Presentation := some p₁,
    ContentTypes := some ct₁,
    slideMap := mapDelete f.slideMap sid,
    Pkg := mapDelete (mapDelete f.Pkg slideXML) rels,
    Relationships := mapDelete (mapStore f.Relationships
      "ppt/_rels/presentation.xml.rels" prels₁) rels,
    Slide := mapDelete f.Slide slideXML,
    xmlAttr := mapDelete f.xmlAttr slideXML,
    SlideCount := f.SlideCount - 1}

/-- The presentation part of the two-slide scenario file. -/
def exC2Pres : decodePresentation := ⟨[⟨"rId3", 256⟩, ⟨"rId4", 257⟩]⟩

/-- The content-types part of the two-slide scenario file. -/
def exC2CT : contentTypes :=
  ⟨[], [⟨"/ppt/slides/slide1.xml", ContentTypeSlideML⟩,
    ⟨"/ppt/slides/slide2.xml", ContentTypeSlideML⟩,
    ⟨"/ppt/slides/_rels/slide1.xml.rels", ContentTypeRelationships⟩,
    ⟨"/ppt/slides/_rels/slide2.xml.rels", ContentTypeRelationships⟩]⟩

/-- The office-document relationship of the two-slide scenario file. -/
def exC2R0 : relationship :=
  ⟨"rId1", "ppt/presentation.xml", SourceRelationshipOfficeDocument, ""⟩

theorem mapLoad_mapStore_self {α β : Type} [DecidableEq α]
    (m : List (α × β)) (k : α) (v : β) : mapLoad (mapStore m k v) k = some v := by
  induction m with
  | nil => simp [mapStore, mapLoad]
  | cons e rest ih =>
      obtain ⟨k₀, v₀⟩ := e
      by_cases h : k₀ = k <;> simp [mapStore, mapLoad, h, ih]

theorem mapLoad_mapStore_ne {α β : Type} [DecidableEq α]
    (m : List (α × β)) (k k₁ : α) (v : β) (h : k₁ ≠ k) :
    mapLoad (mapStore m k v) k₁ = mapLoad m k₁ := by
  induction m with
  | nil => simp [mapStore, mapLoad, Ne.symm h]
  | cons e rest ih =>
      obtain ⟨k₀, v₀⟩ := e
      by_cases h₀ : k₀ = k
      · subst h₀
        simp [mapStore, mapLoad, Ne.symm h]
      · by_cases h₂ : k₀ = k₁ <;> simp [mapStore, mapLoad, h₀, h₂, ih, h]

theorem mapLoad_mapDelete_self {α β : Type} [DecidableEq α]
    (m : List (α × β)) (k : α) : mapLoad (mapDelete m k) k = none := by
  induction m with
  | nil => simp [mapDelete, mapLoad]
  | cons e rest ih =>
      obtain ⟨k₀, v₀⟩ := e
      by_cases h : k₀ = k <;> simp_all [mapDelete, mapLoad, h]

theorem mapLoad_mapDelete_ne {α β : Type} [DecidableEq α]
    (m : List (α × β)) (k k₁ : α) (h : k₁ ≠ k) :
    mapLoad (mapDelete m k) k₁ = mapLoad m k₁ := by
  induction m with
  | nil => simp [mapDelete, mapLoad]
  | cons e rest ih =>
      obtain ⟨k₀, v₀⟩ := e
      by_cases h₀ : k₀ = k
      · subst h₀
        simp_all [mapDelete, mapLoad, Ne.symm h]
      · by_cases h₂ : k₀ = k₁ <;> simp_all [mapDelete, mapLoad, h₀, h₂]

theorem isPrefixOf_length_le :
    ∀ (p s : List Nat), p.isPrefixOf s → p.length ≤ s.length := by
  intro p
  induction p with
  | nil => simp
  | cons a t ih =>
      intro s h
      cases s with
      | nil => simp [List.isPrefixOf] at h
      | cons b u =>
          simp only [List.isPrefixOf, Bool.and_eq_true, beq_iff_eq] at h
          simpa using ih u h.2

theorem bIndex_some_le (pat : List Nat) :
    ∀ (s : List Nat) (w : Nat), bIndex s pat = some w → w + pat.length ≤ s.length := by
  intro s
  induction s with
  | nil =>
      intro w h
      simp only [bIndex] at h
      by_cases hp : pat.isPrefixOf ([] : List Nat)
      · rw [if_pos hp] at h
        obtain rfl : (0 : Nat) = w := by simpa using h
        simpa using isPrefixOf_length_le pat [] hp
      · rw [if_neg hp] at h
        simp at h
  | cons a t ih =>
      intro w h
      simp only [bIndex] at h
      by_cases hp : pat.isPrefixOf (a :: t)
      · rw [if_pos hp] at h
        obtain rfl : (0 : Nat) = w := by simpa using h
        simpa using isPrefixOf_length_le pat (a :: t) hp
      · rw [if_neg hp] at h
        simp only [Option.map_eq_some'] at h
        obtain ⟨w₀, hw₀, rfl⟩ := h
        have := ih w₀ hw₀
        simp only [List.length_cons]
        omega

theorem bIndex_drop_lt (s pat : List Nat) (w : Nat) (hpat : pat ≠ [])
    (h : bIndex s pat = some w) :
    (s.drop (w + pat.length)).length < s.length := by
  have h₁ := bIndex_some_le pat s w h
  have h₂ : 0 < pat.length := List.length_pos.mpr hpat
  simp only [List.length_drop]
  omega

theorem countOccAux_fuel_indep (pat : List Nat) (hpat : pat ≠ []) (s : List Nat)
    (f₁ f₂ : Nat) (h₁ : s.length < f₁) (h₂ : s.length < f₂) :
    countOccAux pat f₁ s = countOccAux pat f₂ s := by
  cases f₁ with
  | zero => omega
  | succ g₁ =>
      cases f₂ with
      | zero => omega
      | succ g₂ =>
          simp only [countOccAux]
          cases hidx : bIndex s pat with
          | none => rfl
          | some w =>
              have hlt := bIndex_drop_lt s pat w hpat hidx
              show 1 + countOccAux pat g₁ (s.drop (w + pat.length)) =
                1 + countOccAux pat g₂ (s.drop (w + pat.length))
              rw [countOccAux_fuel_indep pat hpat (s.drop (w + pat.length)) g₁ g₂
                (by omega) (by omega)]
termination_by s.length
decreasing_by exact hlt

theorem countOcc_unfold (s pat : List Nat) (hpat : pat ≠ []) :
    countOcc s pat =
      match bIndex s pat with
      | none => 0
      | some w => 1 + countOcc (s.drop (w + pat.length)) pat := by
  cases hidx : bIndex s pat with
  | none =>
      show countOccAux pat (s.length + 1) s = 0
      simp only [countOccAux, hidx]
  | some w =>
      have hlt := bIndex_drop_lt s pat w hpat hidx
      show countOccAux pat (s.length + 1) s = 1 + countOcc (s.drop (w + pat.length)) pat
      simp only [countOccAux, hidx]
      congr 1
      exact countOccAux_fuel_indep pat hpat (s.drop (w + pat.length)) s.length
        ((s.drop (w + pat.length)).length + 1) (by omega) (by omega)

theorem countOcc_le_length (s pat : List Nat) (hpat : pat ≠ []) :
    countOcc s pat ≤ s.length := by
  cases hidx : bIndex s pat with
  | none =>
      have hz : countOcc s pat = 0 := by rw [countOcc_unfold s pat hpat, hidx]
      omega
  | some w =>
      have hlt := bIndex_drop_lt s pat w hpat hidx
      have hrec := countOcc_le_length (s.drop (w + pat.length)) pat hpat
      have hc : countOcc s pat = 1 + countOcc (s.drop (w + pat.length)) pat := by
        rw [countOcc_unfold s pat hpat, hidx]
      omega
termination_by s.length
decreasing_by exact hlt

theorem bIndex_none_of_countOcc_zero (s pat : List Nat) (hpat : pat ≠ [])
    (h : countOcc s pat = 0) : bIndex s pat = none := by
  cases hidx : bIndex s pat with
  | none => rfl
  | some w =>
      have hu : countOcc s pat = 1 + countOcc (s.drop (w + pat.length)) pat := by
        rw [countOcc_unfold s pat hpat, hidx]
      omega

theorem replaceCore_none (source target : List Nat) (s : List Nat)
    (h : bIndex s source = none) (k : Nat) : replaceCore source target k s = s := by
  cases k with
  | zero => rfl
  | succ j => simp only [replaceCore, h]

theorem replaceCore_fuel_ge (source target : List Nat) (hs : source ≠ []) (s : List Nat)
    (k₁ k₂ : Nat) (h₁ : countOcc s source ≤ k₁) (h₂ : countOcc s source ≤ k₂) :
    replaceCore source target k₁ s = replaceCore source target k₂ s := by
  cases hidx : bIndex s source with
  | none => rw [replaceCore_none source target s hidx, replaceCore_none source target s hidx]
  | some w =>
      have hcount : countOcc s source = 1 + countOcc (s.drop (w + source.length)) source := by
        rw [countOcc_unfold s source hs, hidx]
      have hlt := bIndex_drop_lt s source w hs hidx
      cases k₁ with
      | zero => omega
      | succ j₁ =>
          cases k₂ with
          | zero => omega
          | succ j₂ =>
              simp only [replaceCore, hidx]
              rw [replaceCore_fuel_ge source target hs (s.drop (w + source.length)) j₁ j₂
                (by omega) (by omega)]
termination_by s.length
decreasing_by exact hlt

theorem isEmpty_false_of_ne_nil {l : List Nat} (h : l ≠ []) : l.isEmpty = false := by
  cases l with
  | nil => exact absurd rfl h
  | cons a t => rfl

theorem specCore_eq_replaceCore (source target : List Nat) (hs : source ≠ []) :
    ∀ (k : Nat) (s : List Nat), specCore source target k s = replaceCore source target k s := by
  intro k
  induction k with
  | zero => intro s; rfl
  | succ k ih =>
      intro s
      simp only [specCore, replaceCore]
      cases hidx : bIndex s source with
      | none => rfl
      | some w => simp only [isEmpty_false_of_ne_nil hs, Bool.false_eq_true, if_false, ih]

theorem goRepCore_eq_replaceCore (old new : List Nat) (ho : old ≠ []) :
    ∀ (k : Nat) (b : Bool) (s : List Nat), k ≤ countOcc s old →
      goRepCore old new k b s = replaceCore old new k s := by
  intro k
  induction k with
  | zero => intro b s _; rfl
  | succ j ih =>
      intro b s hk
      cases hidx : bIndex s old with
      | none =>
          have hcount : countOcc s old = 0 := by rw [countOcc_unfold s old ho, hidx]
          omega
      | some w =>
          have hcount : countOcc s old = 1 + countOcc (s.drop (w + old.length)) old := by
            rw [countOcc_unfold s old ho, hidx]
          simp only [goRepCore, replaceCore, hidx, isEmpty_false_of_ne_nil ho,
            Bool.false_eq_true, if_false, Option.getD_some]
          rw [ih false (s.drop (w + old.length)) (by omega)]

theorem bytesReplace_eq_spec_aux (s source target : List Nat) (n : Int)
    (hs : source ≠ []) :
    bytesReplace s source target n = bytesReplaceSpec s source target n := by
  by_cases hn : n = 0
  · simp [bytesReplace, bytesReplaceSpec, hn]
  · simp only [bytesReplace, bytesReplaceSpec, if_neg hn]
    rw [specCore_eq_replaceCore source target hs]
    by_cases hlen : source.length < target.length
    · rw [if_pos hlen]
      simp only [goBytesReplace, isEmpty_false_of_ne_nil hs, Bool.false_eq_true,
        if_false, if_neg hn]
      by_cases hm : countOcc s source = 0
      · rw [if_pos hm]
        have hidx := bIndex_none_of_countOcc_zero s source hs hm
        rw [replaceCore_none source target s hidx]
      · rw [if_neg hm]
        by_cases hneg : n < 0
        · have h₁ : (if n < 0 ∨ (countOcc s source : Int) < n then countOcc s source
              else n.toNat) = countOcc s source := if_pos (Or.inl hneg)
          rw [h₁, if_pos hneg]
          rw [goRepCore_eq_replaceCore source target hs (countOcc s source) true s le_rfl]
          exact replaceCore_fuel_ge source target hs s (countOcc s source) (s.length + 1)
            le_rfl (by have := countOcc_le_length s source hs; omega)
        · rw [if_neg hneg]
          by_cases hmn : (countOcc s source : Int) < n
          · have h₁ : (if n < 0 ∨ (countOcc s source : Int) < n then countOcc s source
                else n.toNat) = countOcc s source := if_pos (Or.inr hmn)
            rw [h₁]
            rw [goRepCore_eq_replaceCore source target hs (countOcc s source) true s le_rfl]
            exact replaceCore_fuel_ge source target hs s (countOcc s source) n.toNat
              le_rfl (by omega)
          · have h₁ : (if n < 0 ∨ (countOcc s source : Int) < n then countOcc s source
                else n.toNat) = n.toNat := if_neg (by tauto)
            rw [h₁]
            exact goRepCore_eq_replaceCore source target hs n.toNat true s (by omega)
    · rw [if_neg hlen]
      by_cases hneg : n < 0
      · rw [if_pos hneg, if_pos hneg]
        exact replaceCore_fuel_ge source target hs s s.length (s.length + 1)
          (countOcc_le_length s source hs)
          (by have := countOcc_le_length s source hs; omega)
      · rw [if_neg hneg, if_neg hneg]

theorem bytesReplace_no_occurrence (s src tgt : List Nat) (hs : src ≠ [])
    (h : bIndex s src = none) (n : Int) : bytesReplace s src tgt n = s := by
  have hc : countOcc s src = 0 := by rw [countOcc_unfold s src hs, h]
  by_cases hn : n = 0
  · simp [bytesReplace, hn]
  · simp only [bytesReplace, if_neg hn]
    by_cases hlen : src.length < tgt.length
    · rw [if_pos hlen]
      simp only [goBytesReplace, isEmpty_false_of_ne_nil hs, Bool.false_eq_true,
        if_false, if_neg hn, hc]
      simp
    · rw [if_neg hlen]
      exact replaceCore_none src tgt s h _

/-- C10 (amended): for every byte sequence `s`, every non-empty `source`,
every `target` and every count `n`, `bytesReplace` returns exactly the
byte-level standard replacement semantics of `bytes.Replace`: the first
`n` non-overlapping leftmost occurrences of `source` replaced by
`target`, all of them when `n` is negative, and `s` unchanged when `n` is
zero or `source` does not occur.  For an empty `source` the routine
delegates to the Go standard library's `bytes.Replace`, which steps over
UTF-8 runes rather than bytes, so the byte-level reading of the claim
fails on non-ASCII input (see the counterexample). -/
theorem C10_bytesReplace_eq_spec (s source target : List Nat) (n : Int)
    (hs : source ≠ []) :
    bytesReplace s source target n = bytesReplaceSpec s source target n :=
  bytesReplace_eq_spec_aux s source target n hs

theorem C10_bytesReplace_eq_spec_witness :
    (([1, 2] : List Nat) ≠ [] ∧
      bytesReplace [0, 1, 2, 3, 1, 2] [1, 2] [9] (-1) =
        bytesReplaceSpec [0, 1, 2, 3, 1, 2] [1, 2] [9] (-1)) ∧
    bytesReplace [0, 1, 2, 3, 1, 2] [1, 2] [9] (-1) = [0, 9, 3, 9] :=
  ⟨⟨by decide, C10_bytesReplace_eq_spec [0, 1, 2, 3, 1, 2] [1, 2] [9] (-1) (by decide)⟩,
   by decide⟩

/-- C10 counterexample: with an empty `source`, a non-empty `target` and
the non-ASCII input `[195, 169]` (the UTF-8 encoding of é),
`bytesReplace` delegates to `bytes.Replace`, which steps by UTF-8 runes
and yields `[88, 195, 169, 88]`, while the claim's byte-level semantics
(an occurrence of the empty source before every byte and at the end)
yields `[88, 195, 88, 169, 88]`: the claim fails at this input. -/
theorem C10_counterexample :
    bytesReplace [195, 169] [] [88] (-1) ≠ bytesReplaceSpec [195, 169] [] [88] (-1) ∧
    bytesReplace [195, 169] [] [88] (-1) = [88, 195, 169, 88] ∧
    bytesReplaceSpec [195, 169] [] [88] (-1) = [88, 195, 88, 169, 88] := by
  decide

/-- C6: `namespaceStrictToTransitional` returns exactly the byte-level
replacement of every occurrence of each of the four strict namespace URIs
by its transitional counterpart (the four substitutions composed in the
order of the source's map literal), and returns any input containing none
of the four strict URIs unchanged. -/
theorem C6_namespace_translation (content : List Nat) :
    namespaceStrictToTransitional content =
      bytesReplaceSpec (bytesReplaceSpec (bytesReplaceSpec (bytesReplaceSpec content
        (asciiBytes StrictNameSpaceDocumentPropertiesVariantTypes)
        (asciiBytes NameSpaceDocumentPropertiesVariantTypesValue) (-1))
        (asciiBytes StrictNameSpaceDrawingMLMain)
        (asciiBytes NameSpaceDrawingMLMain) (-1))
        (asciiBytes StrictNameSpaceExtendedProperties)
        (asciiBytes NameSpaceExtendedProperties) (-1))
        (asciiBytes StrictNameSpacePresentationMLMain)
        (asciiBytes NameSpacePresentationMLValue) (-1) ∧
    (bIndex content (asciiBytes StrictNameSpaceDocumentPropertiesVariantTypes) = none →
      bIndex content (asciiBytes StrictNameSpaceDrawingMLMain) = none →
      bIndex content (asciiBytes StrictNameSpaceExtendedProperties) = none →
      bIndex content (asciiBytes StrictNameSpacePresentationMLMain) = none →
      namespaceStrictToTransitional content = content) := by
  have h₁ : asciiBytes StrictNameSpaceDocumentPropertiesVariantTypes ≠ [] := by decide
  have h₂ : asciiBytes StrictNameSpaceDrawingMLMain ≠ [] := by decide
  have h₃ : asciiBytes StrictNameSpaceExtendedProperties ≠ [] := by decide
  have h₄ : asciiBytes StrictNameSpacePresentationMLMain ≠ [] := by decide
  constructor
  · simp only [namespaceStrictToTransitional]
    rw [bytesReplace_eq_spec_aux _ _ _ _ h₁, bytesReplace_eq_spec_aux _ _ _ _ h₂,
      bytesReplace_eq_spec_aux _ _ _ _ h₃, bytesReplace_eq_spec_aux _ _ _ _ h₄]
  · intro d₁ d₂ d₃ d₄
    simp only [namespaceStrictToTransitional]
    rw [bytesReplace_no_occurrence _ _ _ h₁ d₁, bytesReplace_no_occurrence _ _ _ h₂ d₂,
      bytesReplace_no_occurrence _ _ _ h₃ d₃, bytesReplace_no_occurrence _ _ _ h₄ d₄]

theorem C6_namespace_translation_witness :
    (bIndex [104, 105] (asciiBytes StrictNameSpaceDocumentPropertiesVariantTypes) = none ∧
      bIndex [104, 105] (asciiBytes StrictNameSpaceDrawingMLMain) = none ∧
      bIndex [104, 105] (asciiBytes StrictNameSpaceExtendedProperties) = none ∧
      bIndex [104, 105] (asciiBytes StrictNameSpacePresentationMLMain) = none) ∧
    namespaceStrictToTransitional [104, 105] = [104, 105] :=
  ⟨⟨by decide, by decide, by decide, by decide⟩,
   (C6_namespace_translation [104, 105]).2 (by decide) (by decide) (by decide) (by decide)⟩

/-- C4: opening with both size limits explicitly set (non-zero) and
`UnzipXMLSizeLimit > UnzipSizeLimit` fails with the configuration error
`ErrOptionsUnzipSizeLimit`; when only one of the two fields is set, the
missing one is derived so that after validation
`UnzipXMLSizeLimit ≤ UnzipSizeLimit` holds and no error is returned. -/
theorem C4_options_validation (o : Options) :
    (o.unzipSizeLimit ≠ 0 → o.unzipXMLSizeLimit ≠ 0 →
      o.unzipXMLSizeLimit > o.unzipSizeLimit →
      (checkOpenReaderOptions o).1 = some GoErr.errOptionsUnzipSizeLimit) ∧
    (o.unzipSizeLimit = 0 → o.unzipXMLSizeLimit ≠ 0 →
      (checkOpenReaderOptions o).1 = none ∧
      (checkOpenReaderOptions o).2.unzipXMLSizeLimit ≤
        (checkOpenReaderOptions o).2.unzipSizeLimit) ∧
    (o.unzipSizeLimit ≠ 0 → o.unzipXMLSizeLimit = 0 →
      (checkOpenReaderOptions o).1 = none ∧
      (checkOpenReaderOptions o).2.unzipXMLSizeLimit ≤
        (checkOpenReaderOptions o).2.unzipSizeLimit) := by
  obtain ⟨pw, a, x, td⟩ := o
  simp only [checkOpenReaderOptions, UnzipSizeLimit, StreamChunkSize]
  split_ifs <;> simp_all <;> omega

theorem C4_options_validation_witness :
    ((⟨"", 0, 5, ""⟩ : Options).unzipSizeLimit = 0 ∧
      (⟨"", 0, 5, ""⟩ : Options).unzipXMLSizeLimit ≠ 0) ∧
    (checkOpenReaderOptions ⟨"", 0, 5, ""⟩).1 = none ∧
    (checkOpenReaderOptions ⟨"", 0, 5, ""⟩).2.unzipXMLSizeLimit ≤
      (checkOpenReaderOptions ⟨"", 0, 5, ""⟩).2.unzipSizeLimit :=
  ⟨⟨by decide, by decide⟩,
   (C4_options_validation ⟨"", 0, 5, ""⟩).2.1 (by decide) (by decide)⟩

/-- C7 counterexample: a flush whose backing-file write fails after
consuming one byte reports the error, but the in-memory buffer no longer
contains all the bytes it held before the call — `bytes.Buffer.WriteTo`
drains the bytes the failed write consumed, so `[1, 2, 3]` becomes
`[2, 3]`. -/
theorem C7_counterexample :
    (bufferedWriter.Flush ⟨"", some ⟨"t", []⟩, [1, 2, 3]⟩ 1 false).1 = some GoErr.ioError ∧
    (bufferedWriter.Flush ⟨"", some ⟨"t", []⟩, [1, 2, 3]⟩ 1 false).2.buf ≠ [1, 2, 3] ∧
    (bufferedWriter.Flush ⟨"", some ⟨"t", []⟩, [1, 2, 3]⟩ 1 false).2.buf = [2, 3] := by
  decide

/-- C7 (amended): when no backing temp file exists, `Flush` returns nil
and changes nothing; when a backing file exists, the buffer is non-empty
and the write fails after consuming `m` bytes (with `m ≤ len(buf)` and
success implying full consumption, per the `io.Writer` contract), `Flush`
reports the error and the in-memory buffer retains exactly the bytes the
write did not consume — in particular all of them when the failed write
consumed nothing. -/
theorem C7_flush (bw : bufferedWriter) (m : Nat) (ok : Bool)
    (hm : m ≤ bw.buf.length) (hok : ok = true → m = bw.buf.length) :
    (bw.tmp = none → bufferedWriter.Flush bw m ok = (none, bw)) ∧
    (∀ t, bw.tmp = some t → ok = false → bw.buf ≠ [] →
      (bufferedWriter.Flush bw m ok).1 = some GoErr.ioError ∧
      (bufferedWriter.Flush bw m ok).2.buf = bw.buf.drop m ∧
      (m = 0 → (bufferedWriter.Flush bw m ok).2.buf = bw.buf)) := by
  constructor
  · intro h
    simp [bufferedWriter.Flush, h]
  · intro t ht hok₂ hne
    subst hok₂
    have hlen : ¬ bw.buf.length = 0 := fun h => hne (List.length_eq_zero.mp h)
    refine ⟨?_, ?_, ?_⟩
    · simp [bufferedWriter.Flush, ht, hlen]
    · simp [bufferedWriter.Flush, ht, hlen]
    · intro hm0
      subst hm0
      simp [bufferedWriter.Flush, ht, hlen]

theorem C7_flush_witness :
    ((0 : Nat) ≤ ([5] : List Nat).length ∧
      (false = true → (0 : Nat) = ([5] : List Nat).length)) ∧
    bufferedWriter.Flush ⟨"", none, [5]⟩ 0 false = (none, ⟨"", none, [5]⟩) :=
  ⟨⟨by decide, by decide⟩,
   (C7_flush ⟨"", none, [5]⟩ 0 false (by decide) (by decide)).1 rfl⟩

theorem sumSizes_nil : sumSizes [] = 0 := rfl

theorem sumSizes_cons (e : ZipEntry) (l : List ZipEntry) :
    sumSizes (e :: l) = e.size + sumSizes l := by
  simp [sumSizes]

theorem readZipStep_unzipSize (opt : Options) (acc : RZAcc) (e : ZipEntry) :
    (readZipStep opt acc e).unzipSize = acc.unzipSize + e.size := by
  simp only [readZipStep]
  split_ifs <;> rfl

theorem readZipLoop_limit (opt : Options) :
    ∀ (entries : List ZipEntry) (acc : RZAcc),
      acc.unzipSize ≤ opt.unzipSizeLimit →
      opt.unzipSizeLimit < acc.unzipSize + sumSizes entries →
      ∃ k : Nat, k < entries.length ∧
        opt.unzipSizeLimit < acc.unzipSize + sumSizes (entries.take (k + 1)) ∧
        acc.unzipSize + sumSizes (entries.take k) ≤ opt.unzipSizeLimit ∧
        readZipLoop opt acc entries = readZipLoop opt acc (entries.take (k + 1)) ∧
        (readZipLoop opt acc entries).err =
          some (GoErr.unzipSizeLimitExceeded opt.unzipSizeLimit) := by
  intro entries
  induction entries with
  | nil =>
      intro acc h₁ h₂
      rw [sumSizes_nil] at h₂
      omega
  | cons e rest ih =>
      intro acc h₁ h₂
      by_cases hex : acc.unzipSize + e.size > opt.unzipSizeLimit
      · refine ⟨0, by simp, ?_, ?_, ?_, ?_⟩
        · simpa [sumSizes_cons, sumSizes_nil] using hex
        · simpa [sumSizes_nil] using h₁
        · simp [readZipLoop, hex]
        · simp [readZipLoop, hex]
      · push_neg at hex
        have hstep := readZipStep_unzipSize opt acc e
        rw [sumSizes_cons] at h₂
        obtain ⟨k, hk, hk1, hk2, hk3, hk4⟩ := ih (readZipStep opt acc e)
          (by omega) (by omega)
        rw [hstep] at hk1 hk2
        refine ⟨k + 1, by simp; omega, ?_, ?_, ?_, ?_⟩
        · rw [List.take_succ_cons, sumSizes_cons]
          omega
        · rw [List.take_succ_cons, sumSizes_cons]
          omega
        · rw [List.take_succ_cons]
          simp only [readZipLoop, if_neg (by omega : ¬ acc.unzipSize + e.size > opt.unzipSizeLimit)]
          exact hk3
        · simp only [readZipLoop, if_neg (by omega : ¬ acc.unzipSize + e.size > opt.unzipSizeLimit)]
          exact hk4

/-- C5: for every archive whose cumulative uncompressed entry size
exceeds the configured (non-negative) `UnzipSizeLimit`, `ReadZipReader`
returns the resource-limit error carrying exactly that configured limit
value, and it returns it at the first entry at which the running
uncompressed-size total exceeds the limit: the whole result equals the
run over just the entries up to and including that entry, so no later
entry is processed. -/
theorem C5_size_limit (opt : Options) (entries : List ZipEntry)
    (h₀ : 0 ≤ opt.unzipSizeLimit) (h : opt.unzipSizeLimit < sumSizes entries) :
    ∃ k : Nat, k < entries.length ∧
      opt.unzipSizeLimit < sumSizes (entries.take (k + 1)) ∧
      sumSizes (entries.take k) ≤ opt.unzipSizeLimit ∧
      ReadZipReader opt entries = ReadZipReader opt (entries.take (k + 1)) ∧
      (ReadZipReader opt entries).err =
        some (GoErr.unzipSizeLimitExceeded opt.unzipSizeLimit) := by
  have h₁ := readZipLoop_limit opt entries ⟨[], [], 0, 0⟩ (by simpa) (by simpa)
  simpa [ReadZipReader] using h₁

theorem C5_size_limit_witness :
    ((0 : Int) ≤ (⟨"", 5, 100, ""⟩ : Options).unzipSizeLimit ∧
      (⟨"", 5, 100, ""⟩ : Options).unzipSizeLimit <
        sumSizes [⟨"a", 3, false, [1], "", false⟩, ⟨"b", 4, false, [2], "", false⟩,
          ⟨"c", 1, false, [3], "", false⟩]) ∧
    ∃ k : Nat,
      k < ([⟨"a", 3, false, [1], "", false⟩, ⟨"b", 4, false, [2], "", false⟩,
        ⟨"c", 1, false, [3], "", false⟩] : List ZipEntry).length ∧
      (⟨"", 5, 100, ""⟩ : Options).unzipSizeLimit <
        sumSizes (([⟨"a", 3, false, [1], "", false⟩, ⟨"b", 4, false, [2], "", false⟩,
          ⟨"c", 1, false, [3], "", false⟩] : List ZipEntry).take (k + 1)) ∧
      sumSizes (([⟨"a", 3, false, [1], "", false⟩, ⟨"b", 4, false, [2], "", false⟩,
        ⟨"c", 1, false, [3], "", false⟩] : List ZipEntry).take k) ≤
        (⟨"", 5, 100, ""⟩ : Options).unzipSizeLimit ∧
      ReadZipReader ⟨"", 5, 100, ""⟩ [⟨"a", 3, false, [1], "", false⟩,
        ⟨"b", 4, false, [2], "", false⟩, ⟨"c", 1, false, [3], "", false⟩] =
        ReadZipReader ⟨"", 5, 100, ""⟩
          (([⟨"a", 3, false, [1], "", false⟩, ⟨"b", 4, false, [2], "", false⟩,
            ⟨"c", 1, false, [3], "", false⟩] : List ZipEntry).take (k + 1)) ∧
      (ReadZipReader ⟨"", 5, 100, ""⟩ [⟨"a", 3, false, [1], "", false⟩,
        ⟨"b", 4, false, [2], "", false⟩, ⟨"c", 1, false, [3], "", false⟩]).err =
        some (GoErr.unzipSizeLimitExceeded (⟨"", 5, 100, ""⟩ : Options).unzipSizeLimit) :=
  ⟨⟨by decide, by decide⟩,
   C5_size_limit ⟨"", 5, 100, ""⟩ _ (by decide) (by decide)⟩

theorem sortDesc_perm_eq (l₁ l₂ : List String) (h : l₁.Perm l₂) :
    sortDesc l₁ = sortDesc l₂ :=
  List.eq_of_perm_of_sorted
    ((List.perm_insertionSort revLexLe l₁).trans
      (h.trans (List.perm_insertionSort revLexLe l₂).symm))
    (List.sorted_insertionSort revLexLe l₁)
    (List.sorted_insertionSort revLexLe l₂)

/-- C8: during `writeToZip`, the archive entries for the parts that are
not backed by a stream writer are the resident `Pkg` parts sorted in
reverse lexicographic path order followed by the temp-file parts not
shadowed by `Pkg`, also sorted in reverse lexicographic path order; the
sequence does not depend on the order in which the unordered map
enumerations yield the keys, so two saves of the same package state emit
these entries in the same order. -/
theorem C8_writeToZip_deterministic (f : File) (e₁ e₂ t₁ t₂ : List String)
    (he : e₁.Perm e₂) (ht : t₁.Perm t₂) :
    writeToZipEntries f e₁ t₁ = writeToZipEntries f e₂ t₂ ∧
    List.Sorted revLexLe
      (sortDesc (e₁.filter (fun path => (mapLoad f.streams path).isNone))) ∧
    List.Sorted revLexLe
      (sortDesc (t₁.filter (fun path => (mapLoad f.Pkg path).isNone))) := by
  refine ⟨?_, List.sorted_insertionSort revLexLe _, List.sorted_insertionSort revLexLe _⟩
  simp only [writeToZipEntries]
  rw [sortDesc_perm_eq _ _ (he.filter _), sortDesc_perm_eq _ _ (ht.filter _)]

theorem C8_writeToZip_deterministic_witness :
    (["b", "a"].Perm ["a", "b"] ∧ ["d", "c"].Perm ["c", "d"]) ∧
    writeToZipEntries ⟨⟨"", 0, 0, ""⟩, [], [], [], [], none, "", [("c", [1])], none,
        [], [], 0, []⟩ ["b", "a"] ["d", "c"] =
      writeToZipEntries ⟨⟨"", 0, 0, ""⟩, [], [], [], [], none, "", [("c", [1])], none,
        [], [], 0, []⟩ ["a", "b"] ["c", "d"] :=
  ⟨⟨by decide, by decide⟩,
   (C8_writeToZip_deterministic ⟨⟨"", 0, 0, ""⟩, [], [], [], [], none, "", [("c", [1])],
      none, [], [], 0, []⟩ ["b", "a"] ["a", "b"] ["d", "c"] ["c", "d"]
      (by decide) (by decide)).1⟩

theorem slideIdxAux_not_mem (slideID : Int) (l : List Int) (h : slideID ∉ l) :
    ∀ i : Nat, slideIdxAux slideID i l = -1 := by
  induction l with
  | nil => intro i; rfl
  | cons a t ih =>
      intro i
      simp only [List.mem_cons, not_or] at h
      simp only [slideIdxAux, if_neg (Ne.symm h.1)]
      exact ih h.2 (i + 1)

theorem slideIdxAux_mem_ne (slideID : Int) (l : List Int) (h : slideID ∈ l) :
    ∀ i : Nat, slideIdxAux slideID i l ≠ -1 := by
  induction l with
  | nil => simp at h
  | cons a t ih =>
      intro i
      by_cases hEq : a = slideID
      · simp only [slideIdxAux, if_pos hEq]
        omega
      · simp only [slideIdxAux, if_neg hEq]
        rcases List.mem_cons.mp h with h₁ | h₁
        · exact absurd h₁.symm hEq
        · exact ih h₁ (i + 1)

/-- C3: `DeleteSlide` on a file holding exactly one slide
(`SlideCount = 1`), or called with a slide id absent from the
presentation's slide id list, returns nil (no error) and leaves the
entire file state — slide count, presentation slide list, relationships,
content types and stored parts — unchanged. -/
theorem C3_delete_refusal (ext : ExtEnv) (f : File) (p : decodePresentation)
    (hp : f.Presentation = some p) (slideID : Int)
    (h : f.SlideCount = 1 ∨ slideID ∉ p.Slides.map (fun s => s.SlideID)) :
    DeleteSlide ext f slideID = (none, f) := by
  have hpr : presentationReader ext f = (p, f) := by
    simp only [presentationReader, hp]
  rcases h with h | h
  · simp only [DeleteSlide, GetSlideIndex, GetSlideList, hpr]
    rw [if_pos (Or.inl h)]
  · simp only [DeleteSlide, GetSlideIndex, GetSlideList, hpr]
    rw [if_pos (Or.inr (slideIdxAux_not_mem slideID _ h 0))]

theorem readBytes_fields (ext : ExtEnv) (f : File) (name : String) :
    (readBytes ext f name).2.slideMap = f.slideMap ∧
    (readBytes ext f name).2.Slide = f.Slide ∧
    (readBytes ext f name).2.checked = f.checked := by
  unfold readBytes
  by_cases h : (readXML f name).length ≠ 0
  · rw [if_pos h]
    exact ⟨rfl, rfl, rfl⟩
  · rw [if_neg h]
    cases hm : mapLoad f.tempFiles name with
    | none => exact ⟨rfl, rfl, rfl⟩
    | some tmpPath =>
        dsimp only
        cases hc : ext.tempFileContent tmpPath with
        | none => exact ⟨rfl, rfl, rfl⟩
        | some bytes => exact ⟨rfl, rfl, rfl⟩

theorem slideReaderAttrStep_slideMap (ext : ExtEnv) (f : File) (path : String) :
    (slideReaderAttrStep ext f path).slideMap = f.slideMap := by
  unfold slideReaderAttrStep
  by_cases h₀ : (mapLoad f.xmlAttr path).isNone
  · rw [if_pos h₀]
    exact (readBytes_fields ext f path).1
  · rw [if_neg h₀]

theorem slideReaderCheckStep_slideMap (f : File) (path : String) :
    (slideReaderCheckStep f path).slideMap = f.slideMap := by
  unfold slideReaderCheckStep
  by_cases h₀ : (mapLoad f.checked path).isNone
  · rw [if_pos h₀]
  · rw [if_neg h₀]

theorem slideReaderCheckStep_Slide (f : File) (path : String) :
    (slideReaderCheckStep f path).Slide = f.Slide := by
  unfold slideReaderCheckStep
  by_cases h₀ : (mapLoad f.checked path).isNone
  · rw [if_pos h₀]
  · rw [if_neg h₀]

theorem slideReaderDecode_fields (ext : ExtEnv) (f : File) (path : String) :
    (slideReaderDecode ext f path).2.slideMap = f.slideMap ∧
    mapLoad (slideReaderDecode ext f path).2.Slide path =
      some (slideReaderDecode ext f path).1 := by
  unfold slideReaderDecode
  constructor
  · show (slideReaderCheckStep (readBytes ext (slideReaderAttrStep ext f path) path).2
      path).slideMap = f.slideMap
    rw [slideReaderCheckStep_slideMap,
      (readBytes_fields ext (slideReaderAttrStep ext f path) path).1,
      slideReaderAttrStep_slideMap]
  · exact mapLoad_mapStore_self _ _ _

/-- C9: for every slide id present in the file's slide map, the first
`slideReader` call succeeds with a decoded slide structure, and a second
call with no mutation in between returns the value-equal (indeed
identical) structure without changing the state and without re-parsing:
the second call's result is the memoized structure and does not depend on
the decoder environment at all. -/
theorem C9_slideReader_memoized (ext : ExtEnv) (f : File) (slideID : Int)
    (path : String) (hp : mapLoad f.slideMap slideID = some path) :
    ∃ s : Slide, (slideReader ext f slideID).1 = Except.ok s ∧
      ∀ ext₂ : ExtEnv,
        slideReader ext₂ (slideReader ext f slideID).2 slideID =
          (Except.ok s, (slideReader ext f slideID).2) := by
  cases hc : mapLoad f.Slide path with
  | some s =>
      refine ⟨s, ?_, ?_⟩
      · simp [slideReader, hp, hc]
      · intro ext₂
        simp [slideReader, hp, hc]
  | none =>
      obtain ⟨hmap, hload⟩ := slideReaderDecode_fields ext f path
      refine ⟨(slideReaderDecode ext f path).1, ?_, ?_⟩
      · simp [slideReader, hp, hc]
      · intro ext₂
        have h₁ : (slideReader ext f slideID).2 = (slideReaderDecode ext f path).2 := by
          simp [slideReader, hp, hc]
        rw [h₁]
        have hmp : mapLoad (slideReaderDecode ext f path).2.slideMap slideID = some path := by
          rw [hmap]; exact hp
        simp [slideReader, hmp, hload]

theorem C9_slideReader_memoized_witness :
    mapLoad (⟨⟨"", 0, 0, ""⟩, [], [(256, "ppt/slides/slide1.xml")], [], [], none, "",
        [("ppt/slides/slide1.xml", [3])], none, [], [], 1, []⟩ : File).slideMap 256 =
      some "ppt/slides/slide1.xml" ∧
    ∃ s : Slide,
      (slideReader extUnit ⟨⟨"", 0, 0, ""⟩, [], [(256, "ppt/slides/slide1.xml")], [], [],
        none, "", [("ppt/slides/slide1.xml", [3])], none, [], [], 1, []⟩ 256).1 =
        Except.ok s ∧
      ∀ ext₂ : ExtEnv,
        slideReader ext₂ (slideReader extUnit ⟨⟨"", 0, 0, ""⟩, [], [(256, "ppt/slides/slide1.xml")],
          [], [], none, "", [("ppt/slides/slide1.xml", [3])], none, [], [], 1, []⟩ 256).2 256 =
          (Except.ok s, (slideReader extUnit ⟨⟨"", 0, 0, ""⟩, [], [(256, "ppt/slides/slide1.xml")],
            [], [], none, "", [("ppt/slides/slide1.xml", [3])], none, [], [], 1, []⟩ 256).2) :=
  ⟨by decide, C9_slideReader_memoized extUnit _ 256 "ppt/slides/slide1.xml" (by decide)⟩

theorem C3_delete_refusal_witness :
    ((⟨⟨"", 0, 0, ""⟩, [], [], [], [], none, "", [], some ⟨[⟨"rId3", 256⟩]⟩, [], [], 1, []⟩ :
        File).Presentation = some ⟨[⟨"rId3", 256⟩]⟩ ∧
      ((⟨⟨"", 0, 0, ""⟩, [], [], [], [], none, "", [], some ⟨[⟨"rId3", 256⟩]⟩, [], [], 1, []⟩ :
        File).SlideCount = 1 ∨
        (999 : Int) ∉ (⟨[⟨"rId3", 256⟩]⟩ : decodePresentation).Slides.map (fun s => s.SlideID))) ∧
    DeleteSlide extUnit
        ⟨⟨"", 0, 0, ""⟩, [], [], [], [], none, "", [], some ⟨[⟨"rId3", 256⟩]⟩, [], [], 1, []⟩ 999 =
      (none, ⟨⟨"", 0, 0, ""⟩, [], [], [], [], none, "", [], some ⟨[⟨"rId3", 256⟩]⟩, [], [], 1, []⟩) :=
  ⟨⟨rfl, Or.inl rfl⟩,
   C3_delete_refusal extUnit _ ⟨[⟨"rId3", 256⟩]⟩ rfl 999 (Or.inl rfl)⟩

theorem newSlideID_foldl (l : List decodeSlideID) :
    ∀ acc : Int,
      acc ≤ l.foldl (fun acc s => if s.SlideID ≥ acc then s.SlideID + 1 else acc) acc ∧
      ∀ e ∈ l, e.SlideID <
        l.foldl (fun acc s => if s.SlideID ≥ acc then s.SlideID + 1 else acc) acc := by
  induction l with
  | nil =>
      intro acc
      exact ⟨le_rfl, by simp⟩
  | cons x t ih =>
      intro acc
      simp only [List.foldl_cons]
      have h₁ : acc ≤ (if x.SlideID ≥ acc then x.SlideID + 1 else acc) ∧
          x.SlideID < (if x.SlideID ≥ acc then x.SlideID + 1 else acc) := by
        by_cases h : x.SlideID ≥ acc
        · rw [if_pos h]; omega
        · rw [if_neg h]; omega
      obtain ⟨ih₁, ih₂⟩ := ih (if x.SlideID ≥ acc then x.SlideID + 1 else acc)
      refine ⟨le_trans h₁.1 ih₁, ?_⟩
      intro e he
      rcases List.mem_cons.mp he with rfl | he
      · exact lt_of_lt_of_le h₁.2 ih₁
      · exact ih₂ e he

/-- C1 (amended): every id returned by `NewSlide` is at least the floor
256 and strictly greater than every slide id present in the
presentation's id list at the time of the call, so it is distinct from
the id of every currently existing slide.  Strict monotonicity across a
whole session does not survive deletions: `NewSlide` recomputes the id
from the current list, so after the slide with the largest id is deleted
the next `NewSlide` returns that id again (see the counterexample). -/
theorem C1_newSlide_fresh (ext : ExtEnv) (f : File) (p : decodePresentation)
    (hp : f.Presentation = some p) :
    defaultXMLSlideID ≤ (NewSlide ext f).1 ∧
    ∀ e ∈ p.Slides, e.SlideID < (NewSlide ext f).1 := by
  have hpr : presentationReader ext f = (p, f) := by
    simp only [presentationReader, hp]
  have hfold := newSlideID_foldl p.Slides defaultXMLSlideID
  constructor
  · simp only [NewSlide, hpr]
    exact hfold.1
  · intro e he
    simp only [NewSlide, hpr]
    exact hfold.2 e he

theorem C1_newSlide_fresh_witness :
    exC1File.Presentation = some ⟨[⟨"rId3", 256⟩, ⟨"rId4", 257⟩]⟩ ∧
    (defaultXMLSlideID ≤ (NewSlide extUnit exC1File).1 ∧
      ∀ e ∈ (⟨[⟨"rId3", 256⟩, ⟨"rId4", 257⟩]⟩ : decodePresentation).Slides,
        e.SlideID < (NewSlide extUnit exC1File).1) :=
  ⟨rfl, C1_newSlide_fresh extUnit exC1File ⟨[⟨"rId3", 256⟩, ⟨"rId4", 257⟩]⟩ rfl⟩

/-- C1 counterexample: starting from the two-slide file (ids 256, 257),
`NewSlide` returns 258 and `DeleteSlide 258` succeeds; the next
`NewSlide` of the same session returns 258 again — equal to, not
strictly greater than, the id the earlier `NewSlide` returned, because
the id is recomputed from the current id list and the largest id was
deleted in between. -/
theorem C1_counterexample :
    (NewSlide extUnit exC1File).1 = 258 ∧
    (DeleteSlide extUnit (NewSlide extUnit exC1File).2 258).1 = none ∧
    (NewSlide extUnit (DeleteSlide extUnit (NewSlide extUnit exC1File).2 258).2).1 = 258 ∧
    ¬ ((NewSlide extUnit exC1File).1 <
        (NewSlide extUnit (DeleteSlide extUnit (NewSlide extUnit exC1File).2 258).2).1) := by
  decide

theorem digitChar_ok (m : Nat) : Nat.digitChar m ≠ '/' ∧ Nat.digitChar m ≠ '\\' := by
  rcases Nat.lt_or_ge m 16 with h | h
  · interval_cases m <;> exact ⟨by decide, by decide⟩
  · have hne : ∀ k : Nat, k < 16 → ¬ (m = k) := fun k hk he => by omega
    have h₁ : Nat.digitChar m = '*' := by
      unfold Nat.digitChar
      rw [if_neg (hne 0 (by norm_num)), if_neg (hne 1 (by norm_num)),
        if_neg (hne 2 (by norm_num)), if_neg (hne 3 (by norm_num)),
        if_neg (hne 4 (by norm_num)), if_neg (hne 5 (by norm_num)),
        if_neg (hne 6 (by norm_num)), if_neg (hne 7 (by norm_num)),
        if_neg (hne 8 (by norm_num)), if_neg (hne 9 (by norm_num)),
        if_neg (hne 10 (by norm_num)), if_neg (hne 11 (by norm_num)),
        if_neg (hne 12 (by norm_num)), if_neg (hne 13 (by norm_num)),
        if_neg (hne 14 (by norm_num)), if_neg (hne 15 (by norm_num))]
    rw [h₁]
    exact ⟨by decide, by decide⟩

theorem toDigitsCore_ok (b : Nat) :
    ∀ (fuel n : Nat) (ds : List Char), (∀ c ∈ ds, c ≠ '/' ∧ c ≠ '\\') →
      ∀ c ∈ Nat.toDigitsCore b fuel n ds, c ≠ '/' ∧ c ≠ '\\' := by
  intro fuel
  induction fuel with
  | zero =>
      intro n ds h c hc
      unfold Nat.toDigitsCore at hc
      exact h c hc
  | succ fuel ih =>
      intro n ds h c hc
      unfold Nat.toDigitsCore at hc
      by_cases hz : n / b = 0
      · rw [if_pos hz] at hc
        rcases List.mem_cons.mp hc with rfl | hc
        · exact digitChar_ok _
        · exact h c hc
      · rw [if_neg hz] at hc
        refine ih (n / b) (Nat.digitChar (n % b) :: ds) ?_ c hc
        intro c₁ hc₁
        rcases List.mem_cons.mp hc₁ with rfl | hc₁
        · exact digitChar_ok _
        · exact h c₁ hc₁

theorem natRepr_ok (n : Nat) : ∀ c ∈ (Nat.repr n).data, c ≠ '/' ∧ c ≠ '\\' := by
  intro c hc
  have h₁ : (Nat.repr n).data = Nat.toDigitsCore 10 (n + 1) n [] := rfl
  rw [h₁] at hc
  exact toDigitsCore_ok 10 (n + 1) n [] (by simp) c hc

theorem splitCharAux_no_sep (sep : Char) :
    ∀ (l : List Char), (∀ c ∈ l, c ≠ sep) → ∀ cur : List Char,
      splitCharAux sep l cur = [String.mk (cur.reverse ++ l)] := by
  intro l
  induction l with
  | nil =>
      intro _ cur
      simp [splitCharAux]
  | cons c rest ih =>
      intro h cur
      have hc : c ≠ sep := h c (List.mem_cons_self c rest)
      simp only [splitCharAux, if_neg hc]
      rw [ih (fun c₁ hc₁ => h c₁ (List.mem_cons_of_mem c hc₁)) (c :: cur)]
      simp

theorem dropWhile_append_all {p : Char → Bool} :
    ∀ (l₁ l₂ : List Char), (∀ a ∈ l₁, p a = true) →
      (l₁ ++ l₂).dropWhile p = l₂.dropWhile p := by
  intro l₁
  induction l₁ with
  | nil => intro l₂ _; rfl
  | cons a t ih =>
      intro l₂ h
      simp only [List.cons_append, List.dropWhile_cons,
        h a (List.mem_cons_self a t), if_true]
      exact ih l₂ (fun a₁ ha₁ => h a₁ (List.mem_cons_of_mem a ha₁))

theorem takeWhile_append_all {p : Char → Bool} :
    ∀ (l₁ l₂ : List Char), (∀ a ∈ l₁, p a = true) →
      (l₁ ++ l₂).takeWhile p = l₁ ++ l₂.takeWhile p := by
  intro l₁
  induction l₁ with
  | nil => intro l₂ _; rfl
  | cons a t ih =>
      intro l₂ h
      simp only [List.cons_append, List.takeWhile_cons,
        h a (List.mem_cons_self a t), if_true]
      rw [ih l₂ (fun a₁ ha₁ => h a₁ (List.mem_cons_of_mem a ha₁))]

theorem slashify_id (s : String) (h : ∀ c ∈ s.data, c ≠ '\\') : slashify s = s := by
  have h₁ : ∀ c ∈ s.data, (if c = '\\' then '/' else c) = id c := fun c hc => by
    simp [h c hc]
  apply String.ext
  show List.map (fun c => if c = '\\' then '/' else c) s.data = s.data
  rw [List.map_congr_left h₁, List.map_id]

theorem splitChar_pptSlides (X : String) (hX : ∀ c ∈ X.data, c ≠ '/') :
    splitChar ("ppt/slides/" ++ X) '/' = ["ppt", "slides", X] := by
  unfold splitChar
  have hd : ("ppt/slides/" ++ X).data =
      'p':: 'p':: 't':: '/':: 's':: 'l':: 'i':: 'd':: 'e':: 's':: '/':: X.data := by
    show "ppt/slides/".data ++ X.data = _
    rw [show "ppt/slides/".data = ['p','p','t','/','s','l','i','d','e','s','/'] from by decide]
    rfl
  rw [hd]
  simp [splitCharAux]
  rw [splitCharAux_no_sep '/' X.data hX []]
  simp

theorem splitChar_slidesRels (X : String) (hX : ∀ c ∈ X.data, c ≠ '/') :
    splitChar ("slides/_rels/" ++ X) '/' = ["slides", "_rels", X] := by
  unfold splitChar
  have hd : ("slides/_rels/" ++ X).data =
      's':: 'l':: 'i':: 'd':: 'e':: 's':: '/':: '_':: 'r':: 'e':: 'l':: 's':: '/':: X.data := by
    show "slides/_rels/".data ++ X.data = _
    rw [show "slides/_rels/".data =
      ['s','l','i','d','e','s','/','_','r','e','l','s','/'] from by decide]
    rfl
  rw [hd]
  simp [splitCharAux]
  rw [splitCharAux_no_sep '/' X.data hX []]
  simp

theorem intercalate_go_three (a s b c : String) :
    String.intercalate s [a, b, c] = a ++ s ++ b ++ s ++ c := by
  simp [String.intercalate, String.intercalate.go]

theorem strStartsWith_slash_false (X : String) (c : Char) (l : List Char)
    (hd : X.data = c :: l) (hc : c ≠ '/') : strStartsWith X "/" = false := by
  unfold strStartsWith
  rw [show "/".data = ['/'] from by decide, hd]
  simp [List.isPrefixOf, Ne.symm hc]

theorem goClean_pptSlides (X : String) (hX : ∀ c ∈ X.data, c ≠ '/')
    (hne : X ≠ "") (hdot : X ≠ ".") (hdd : X ≠ "..") :
    goClean ("ppt/slides/" ++ X) = "ppt/slides/" ++ X := by
  have hdata : ("ppt/slides/" ++ X).data =
      'p':: 'p':: 't':: '/':: 's':: 'l':: 'i':: 'd':: 'e':: 's':: '/':: X.data := by
    show "ppt/slides/".data ++ X.data = _
    rw [show "ppt/slides/".data = ['p','p','t','/','s','l','i','d','e','s','/'] from by decide]
    rfl
  have hpne : ("ppt/slides/" ++ X) ≠ "" := by
    intro h
    have h₁ := congrArg String.data h
    rw [hdata] at h₁
    simp at h₁
  have habs : strStartsWith ("ppt/slides/" ++ X) "/" = false :=
    strStartsWith_slash_false _ 'p' _ hdata (by decide)
  unfold goClean
  rw [if_neg hpne, habs, splitChar_pptSlides X hX]
  simp only [List.foldl_cons, List.foldl_nil]
  rw [if_neg (show ¬("ppt" = "" ∨ "ppt" = ".") from by decide),
    if_neg (show ¬"ppt" = ".." from by decide),
    if_neg (show ¬("slides" = "" ∨ "slides" = ".") from by decide),
    if_neg (show ¬"slides" = ".." from by decide),
    if_neg (not_or.mpr ⟨hne, hdot⟩), if_neg hdd]
  simp only [List.reverse_cons, List.reverse_nil, List.nil_append, List.cons_append,
    List.singleton_append]
  rw [intercalate_go_three]
  rw [show ("ppt" ++ "/" ++ "slides" ++ "/" : String) = "ppt/slides/" from by decide]
  simp only [Bool.false_eq_true, if_false]
  rw [if_neg hpne]

theorem strAppend_fold (a b c X : String) (h : a ++ b = c) : a ++ (b ++ X) = c ++ X := by
  rw [← h]
  apply String.ext
  show a.data ++ (b.data ++ X.data) = (a.data ++ b.data) ++ X.data
  rw [List.append_assoc]

theorem goTrimPre_append (pre x : String) : goTrimPre (pre ++ x) pre = x := by
  unfold goTrimPre
  have hsw : strStartsWith (pre ++ x) pre = true := by
    unfold strStartsWith
    show pre.data.isPrefixOf (pre.data ++ x.data) = true
    rw [List.isPrefixOf_iff_prefix]
    exact List.prefix_append _ _
  rw [if_pos hsw]
  rw [String.drop_eq]
  show String.mk ((pre.data ++ x.data).drop pre.data.length) = x
  rw [List.drop_left]

theorem goTrimPre_nostart (s pre : String) (h : strStartsWith s pre = false) :
    goTrimPre s pre = s := by
  simp [goTrimPre, h]

theorem goSplit1_slides (X : String) (hX : ∀ c ∈ X.data, c ≠ '/') :
    (goSplit ("slides/" ++ X)).1 = "slides/" := by
  unfold goSplit
  have hrev : ("slides/" ++ X).data.reverse = X.data.reverse ++ "slides/".data.reverse := by
    show ("slides/".data ++ X.data).reverse = _
    rw [List.reverse_append]
  have hall : ∀ a ∈ X.data.reverse, (decide ¬(a = '/')) = true := by
    intro a ha
    simp only [decide_not, Bool.not_eq_true', decide_eq_false_iff_not]
    exact hX a (List.mem_reverse.mp ha)
  simp only [hrev]
  rw [dropWhile_append_all _ _ hall]
  decide

theorem goDir_slides (X : String) (hX : ∀ c ∈ X.data, c ≠ '/') :
    goDir ("slides/" ++ X) = "slides" := by
  unfold goDir
  rw [goSplit1_slides X hX]
  decide

theorem goBase_slides (X : String) (hX : ∀ c ∈ X.data, c ≠ '/') (hne : X ≠ "") :
    goBase ("slides/" ++ X) = X := by
  have hXd : X.data ≠ [] := fun h => hne (String.ext h)
  have hne' : ("slides/" ++ X) ≠ "" := by
    intro h
    have h₁ := congrArg String.data h
    rw [show ("slides/" ++ X).data = "slides/".data ++ X.data from rfl] at h₁
    simp at h₁
  have hrev : ("slides/" ++ X).data.reverse = X.data.reverse ++ "slides/".data.reverse := by
    show ("slides/".data ++ X.data).reverse = _
    rw [List.reverse_append]
  have hdrop : (X.data.reverse ++ "slides/".data.reverse).dropWhile (fun c => decide (c = '/'))
      = X.data.reverse ++ "slides/".data.reverse := by
    obtain ⟨a, t, hat⟩ := List.exists_cons_of_ne_nil
      (show X.data.reverse ≠ [] by simp [hXd])
    have hamem : a ∈ X.data := List.mem_reverse.mp (by rw [hat]; exact List.mem_cons_self a t)
    rw [hat, List.cons_append, List.dropWhile_cons_of_neg (by simp [hX a hamem])]
  have htake : (X.data.reverse ++ "slides/".data.reverse).takeWhile (fun c => decide (c ≠ '/'))
      = X.data.reverse := by
    rw [takeWhile_append_all _ _ ?hall]
    case hall =>
      intro a ha
      simp only [decide_not, Bool.not_eq_true', decide_eq_false_iff_not]
      exact hX a (List.mem_reverse.mp ha)
    rw [show ("slides/".data.reverse.takeWhile (fun c => decide (c ≠ '/'))) = [] from by decide]
    simp
  unfold goBase
  rw [if_neg hne']
  simp only [hrev, hdrop]
  rw [if_neg (show ((X.data.reverse ++ "slides/".data.reverse).reverse) ≠ [] from by simp [hXd])]
  simp only [List.reverse_reverse, htake]

theorem goClean_slidesRels (Y : String) (hY : ∀ c ∈ Y.data, c ≠ '/')
    (hne : Y ≠ "") (hdot : Y ≠ ".") (hdd : Y ≠ "..") :
    goClean ("slides/_rels/" ++ Y) = "slides/_rels/" ++ Y := by
  have hdata : ("slides/_rels/" ++ Y).data =
      's':: 'l':: 'i':: 'd':: 'e':: 's':: '/':: '_':: 'r':: 'e':: 'l':: 's':: '/':: Y.data := by
    show "slides/_rels/".data ++ Y.data = _
    rw [show "slides/_rels/".data =
      ['s','l','i','d','e','s','/','_','r','e','l','s','/'] from by decide]
    rfl
  have hpne : ("slides/_rels/" ++ Y) ≠ "" := by
    intro h
    have h₁ := congrArg String.data h
    rw [hdata] at h₁
    simp at h₁
  have habs : strStartsWith ("slides/_rels/" ++ Y) "/" = false :=
    strStartsWith_slash_false _ 's' _ hdata (by decide)
  unfold goClean
  rw [if_neg hpne, habs, splitChar_slidesRels Y hY]
  simp only [List.foldl_cons, List.foldl_nil]
  rw [if_neg (show ¬("slides" = "" ∨ "slides" = ".") from by decide),
    if_neg (show ¬"slides" = ".." from by decide),
    if_neg (show ¬("_rels" = "" ∨ "_rels" = ".") from by decide),
    if_neg (show ¬"_rels" = ".." from by decide),
    if_neg (not_or.mpr ⟨hne, hdot⟩), if_neg hdd]
  simp only [List.reverse_cons, List.reverse_nil, List.nil_append, List.cons_append,
    List.singleton_append]
  rw [intercalate_go_three]
  rw [show ("slides" ++ "/" ++ "_rels" ++ "/" : String) = "slides/_rels/" from by decide]
  simp only [Bool.false_eq_true, if_false]
  rw [if_neg hpne]

theorem append_rels_facts (X : String) (hX : ∀ c ∈ X.data, c ≠ '/') :
    (∀ c ∈ (X ++ ".rels").data, c ≠ '/') ∧ X ++ ".rels" ≠ "" ∧
      X ++ ".rels" ≠ "." ∧ X ++ ".rels" ≠ ".." := by
  have hdata : (X ++ ".rels").data = X.data ++ ['.','r','e','l','s'] := by
    show X.data ++ ".rels".data = _
    rw [show ".rels".data = ['.','r','e','l','s'] from by decide]
  refine ⟨?_, ?_, ?_, ?_⟩
  · intro c hc
    rw [hdata] at hc
    rcases List.mem_append.mp hc with h | h
    · exact hX c h
    · have hcl : ∀ c ∈ ['.','r','e','l','s'], c ≠ '/' := by decide
      exact hcl c h
  · intro h
    have h₁ := congrArg (fun s => s.data.length) h
    simp only [hdata] at h₁
    simp at h₁
  · intro h
    have h₁ := congrArg (fun s => s.data.length) h
    simp only [hdata] at h₁
    rw [List.length_append] at h₁
    simp at h₁
  · intro h
    have h₁ := congrArg (fun s => s.data.length) h
    simp only [hdata] at h₁
    rw [List.length_append] at h₁
    simp at h₁

theorem goJoin3_slidesRels (X : String) (hX : ∀ c ∈ X.data, c ≠ '/') (hne : X ≠ "") :
    goJoin3 "slides" "_rels" (X ++ ".rels") = "slides/_rels/" ++ (X ++ ".rels") := by
  obtain ⟨hY, hYne, hYdot, hYdd⟩ := append_rels_facts X hX
  unfold goJoin3
  have hfilter : [("slides" : String), "_rels", X ++ ".rels"].filter (fun s => s ≠ "")
      = ["slides", "_rels", X ++ ".rels"] := by
    simp [List.filter, hYne]
  simp only [hfilter]
  rw [if_neg (show (["slides", "_rels", X ++ ".rels"] : List String) ≠ [] from by simp)]
  rw [intercalate_go_three]
  rw [show ("slides" ++ "/" ++ "_rels" ++ "/" : String) = "slides/_rels/" from by decide]
  exact goClean_slidesRels (X ++ ".rels") hY hYne hYdot hYdd

theorem presentationReader_loaded (ext : ExtEnv) (f : File) (p : decodePresentation)
    (hp : f.Presentation = some p) : presentationReader ext f = (p, f) := by
  unfold presentationReader
  rw [hp]

theorem contentTypesReader_loaded (ext : ExtEnv) (f : File) (c : contentTypes)
    (hc : f.ContentTypes = some c) : contentTypesReader ext f = (c, f) := by
  unfold contentTypesReader
  rw [hc]

theorem relsReader_loaded (ext : ExtEnv) (f : File) (path : String) (r : relationships)
    (h : mapLoad f.Relationships path = some r) : relsReader ext f path = (some r, f) := by
  unfold relsReader
  rw [h]

theorem getPresentationPath_loaded (ext : ExtEnv) (f : File) (rootRels : relationships)
    (r₀ : relationship)
    (hroot : mapLoad f.Relationships defaultXMLPathRels = some rootRels)
    (hfind : rootRels.Relationships.find?
      (fun rel => rel.relType == SourceRelationshipOfficeDocument) = some r₀) :
    getPresentationPath ext f = (goTrimPre r₀.Target "/", f) := by
  unfold getPresentationPath
  rw [relsReader_loaded ext f _ rootRels hroot]
  simp only [hfind]

theorem getPresentationRelsPath_std (ext : ExtEnv) (f : File) (rootRels : relationships)
    (r₀ : relationship)
    (hroot : mapLoad f.Relationships defaultXMLPathRels = some rootRels)
    (hfind : rootRels.Relationships.find?
      (fun rel => rel.relType == SourceRelationshipOfficeDocument) = some r₀)
    (htgt : r₀.Target = "ppt/presentation.xml") :
    getPresentationRelsPath ext f = ("ppt/_rels/presentation.xml.rels", f) := by
  unfold getPresentationRelsPath
  rw [getPresentationPath_loaded ext f rootRels r₀ hroot hfind, htgt]
  rfl

theorem getSlidePath_pure (ext : ExtEnv) (f : File) (rootRels : relationships)
    (r₀ : relationship) (t : String)
    (hroot : mapLoad f.Relationships defaultXMLPathRels = some rootRels)
    (hfind : rootRels.Relationships.find?
      (fun rel => rel.relType == SourceRelationshipOfficeDocument) = some r₀) :
    (getSlidePath ext f t).2 = f := by
  unfold getSlidePath
  rw [getPresentationPath_loaded ext f rootRels r₀ hroot hfind]
  by_cases h : strStartsWith t "/" = true
  · rw [if_pos h]
  · rw [if_neg h]

theorem getSlidePath_slides (ext : ExtEnv) (f : File) (rootRels : relationships)
    (r₀ : relationship) (X : String)
    (hroot : mapLoad f.Relationships defaultXMLPathRels = some rootRels)
    (hfind : rootRels.Relationships.find?
      (fun rel => rel.relType == SourceRelationshipOfficeDocument) = some r₀)
    (htgt : r₀.Target = "ppt/presentation.xml")
    (hX : ∀ c ∈ X.data, c ≠ '/' ∧ c ≠ '\\')
    (hne : X ≠ "") (hdot : X ≠ ".") (hdd : X ≠ "..") :
    getSlidePath ext f ("slides/" ++ X) = ("ppt/slides/" ++ X, f) := by
  unfold getSlidePath
  rw [getPresentationPath_loaded ext f rootRels r₀ hroot hfind, htgt]
  have hcons : ("slides/" ++ X).data = 's':: 'l':: 'i':: 'd':: 'e':: 's':: '/':: X.data := by
    show "slides/".data ++ X.data = _
    rw [show "slides/".data = ['s','l','i','d','e','s','/'] from by decide]
    rfl
  rw [strStartsWith_slash_false _ 's' _ hcons (by decide)]
  rw [if_neg (show ¬(false = true) from by decide)]
  rw [show goDir (goTrimPre "ppt/presentation.xml" "/") = "ppt" from by decide]
  rw [show ("ppt" : String) ++ "/" ++ ("slides/" ++ X) = ("ppt" ++ "/") ++ ("slides/" ++ X)
    from rfl]
  rw [strAppend_fold ("ppt" ++ "/") "slides/" "ppt/slides/" X (by decide)]
  rw [goClean_pptSlides X (fun c hc => (hX c hc).1) hne hdot hdd]
  have hdata : ("ppt/slides/" ++ X).data =
      'p':: 'p':: 't':: '/':: 's':: 'l':: 'i':: 'd':: 'e':: 's':: '/':: X.data := by
    show "ppt/slides/".data ++ X.data = _
    rw [show "ppt/slides/".data = ['p','p','t','/','s','l','i','d','e','s','/'] from by decide]
    rfl
  have hnb : ∀ c ∈ ("ppt/slides/" ++ X).data, c ≠ '\\' := by
    intro c hc
    rw [show ("ppt/slides/" ++ X).data = "ppt/slides/".data ++ X.data from rfl] at hc
    rcases List.mem_append.mp hc with h | h
    · have hcl : ∀ c ∈ "ppt/slides/".data, c ≠ '\\' := by decide
      exact hcl c h
    · exact (hX c h).2
  rw [slashify_id _ hnb]
  rw [goTrimPre_nostart _ _ (strStartsWith_slash_false _ 'p' _ hdata (by decide))]

theorem slideFileX_facts (n : Nat) :
    (∀ c ∈ (("slide" ++ toString n) ++ ".xml").data, c ≠ '/' ∧ c ≠ '\\') ∧
    ("slide" ++ toString n) ++ ".xml" ≠ "" ∧
    ("slide" ++ toString n) ++ ".xml" ≠ "." ∧
    ("slide" ++ toString n) ++ ".xml" ≠ ".." := by
  have hdata : (("slide" ++ toString n) ++ ".xml").data =
      's':: 'l':: 'i':: 'd':: 'e':: ((toString n).data ++ ['.','x','m','l']) := by
    show ("slide".data ++ (toString n).data) ++ ".xml".data = _
    rw [show "slide".data = ['s','l','i','d','e'] from by decide,
      show ".xml".data = ['.','x','m','l'] from by decide, List.append_assoc]
    rfl
  refine ⟨?_, ?_, ?_, ?_⟩
  · intro c hc
    rw [show (("slide" ++ toString n) ++ ".xml").data =
      ("slide".data ++ (toString n).data) ++ ".xml".data from rfl] at hc
    rcases List.mem_append.mp hc with h | h
    · rcases List.mem_append.mp h with h₁ | h₁
      · have hcl : ∀ c ∈ "slide".data, c ≠ '/' ∧ c ≠ '\\' := by decide
        exact hcl c h₁
      · exact natRepr_ok n c h₁
    · have hcl : ∀ c ∈ ".xml".data, c ≠ '/' ∧ c ≠ '\\' := by decide
      exact hcl c h
  · intro h
    have h₁ := congrArg String.data h
    rw [hdata] at h₁
    simp at h₁
  · intro h
    have h₁ := congrArg String.data h
    rw [hdata] at h₁
    simp at h₁
  · intro h
    have h₁ := congrArg String.data h
    rw [hdata] at h₁
    simp at h₁

theorem find_unique_by {α β : Type} (key : α → β) (p : α → Bool) (b : β)
    (hp : ∀ u, p u = true ↔ key u = b) :
    ∀ (l : List α) (v : α), (l.map key).Nodup → v ∈ l → key v = b →
      l.find? p = some v := by
  intro l
  induction l with
  | nil => intro v _ hv _; exact absurd hv (List.not_mem_nil v)
  | cons a rest ih =>
      intro v hnd hv hb
      rw [List.map_cons, List.nodup_cons] at hnd
      by_cases hpa : p a = true
      · have hka := (hp a).mp hpa
        have hva : v = a := by
          rcases List.mem_cons.mp hv with h | h
          · exact h
          · exfalso
            have hm : key v ∈ rest.map key := List.mem_map_of_mem key h
            rw [hb, ← hka] at hm
            exact hnd.1 hm
        subst hva
        simp [List.find?, hpa]
      · have hpf : p a = false := by
          rw [Bool.eq_false_iff]
          exact hpa
        have hka : key a ≠ b := fun h => hpa ((hp a).mpr h)
        have hva : v ≠ a := fun h => hka (h ▸ hb)
        have hvrest : v ∈ rest := by
          rcases List.mem_cons.mp hv with h | h
          · exact absurd h hva
          · exact h
        simp only [List.find?, hpf]
        exact ih v hnd.2 hvrest hb

theorem eraseP_key_gone {α β : Type} (key : α → β) (p : α → Bool) (b : β)
    (hp : ∀ u, p u = true ↔ key u = b) :
    ∀ (l : List α), (l.map key).Nodup → ∀ u ∈ l.eraseP p, key u ≠ b := by
  intro l
  induction l with
  | nil => intro _ u hu; simp [List.eraseP] at hu
  | cons a rest ih =>
      intro hnd u hu hub
      rw [List.map_cons, List.nodup_cons] at hnd
      by_cases hpa : p a = true
      · rw [List.eraseP_cons_of_pos hpa] at hu
        have hka := (hp a).mp hpa
        have hm : key u ∈ rest.map key := List.mem_map_of_mem key hu
        rw [hub, ← hka] at hm
        exact hnd.1 hm
      · rw [List.eraseP_cons_of_neg hpa] at hu
        rcases List.mem_cons.mp hu with h | h
        · subst h
          exact hpa ((hp u).mpr hub)
        · exact ih hnd.2 u h hub

theorem deleteSlideScan_no_match (ext : ExtEnv) (rid : String) :
    ∀ (l : List relationship) (acc : (String × String) × File),
      (∀ u ∈ l, u.ID ≠ rid) → l.foldl (deleteSlideScan ext rid) acc = acc := by
  intro l
  induction l with
  | nil => intro acc _; rfl
  | cons a rest ih =>
      intro acc hno
      rw [List.foldl_cons]
      have hpa : (a.ID == rid) = false := by
        simp only [beq_eq_false_iff_ne]
        exact hno a (List.mem_cons_self a rest)
      have hstep : deleteSlideScan ext rid acc a = acc := by
        unfold deleteSlideScan
        rw [hpa]
        rw [if_neg (show ¬(false = true) from by decide)]
      rw [hstep]
      exact ih acc (fun u hu => hno u (List.mem_cons_of_mem a hu))

theorem deleteSlideScan_eval (ext : ExtEnv) (rid : String) (r : relationship) (f₅ : File)
    (hpure : ∀ t, (getSlidePath ext f₅ t).2 = f₅) :
    ∀ (l : List relationship) (acc : (String × String) × File), acc.2 = f₅ →
      (l.map (fun u => u.ID)).Nodup → r ∈ l → r.ID = rid →
      l.foldl (deleteSlideScan ext rid) acc =
        (((getSlidePath ext f₅ r.Target).1,
          "ppt/slides/_rels/" ++
            goTrimPre (getSlidePath ext f₅ r.Target).1 "ppt/slides/" ++ ".rels"), f₅) := by
  intro l
  induction l with
  | nil => intro acc _ _ hr _; exact absurd hr (List.not_mem_nil r)
  | cons a rest ih =>
      intro acc hacc hnd hr hrid
      rw [List.map_cons, List.nodup_cons] at hnd
      rw [List.foldl_cons]
      by_cases hpa : a.ID = rid
      · have hra : r = a := by
          rcases List.mem_cons.mp hr with h | h
          · exact h
          · exfalso
            have hm : r.ID ∈ rest.map (fun u => u.ID) := List.mem_map_of_mem _ h
            rw [hrid, ← hpa] at hm
            exact hnd.1 hm
        have hstep : deleteSlideScan ext rid acc a =
            (((getSlidePath ext f₅ a.Target).1,
              "ppt/slides/_rels/" ++
                goTrimPre (getSlidePath ext f₅ a.Target).1 "ppt/slides/" ++ ".rels"),
             f₅) := by
          unfold deleteSlideScan
          rw [show (a.ID == rid) = true from by simp [hpa]]
          rw [if_pos rfl, hacc]
          show (((getSlidePath ext f₅ a.Target).1,
            "ppt/slides/_rels/" ++
              goTrimPre (getSlidePath ext f₅ a.Target).1 "ppt/slides/" ++ ".rels"),
            (getSlidePath ext f₅ a.Target).2) = _
          rw [hpure a.Target]
        rw [hstep]
        have hno : ∀ u ∈ rest, u.ID ≠ rid := by
          intro u hu he
          have hm : u.ID ∈ rest.map (fun u => u.ID) := List.mem_map_of_mem _ hu
          rw [he, ← hpa] at hm
          exact hnd.1 hm
        rw [deleteSlideScan_no_match ext rid rest _ hno, hra]
      · have hstep : deleteSlideScan ext rid acc a = acc := by
          unfold deleteSlideScan
          rw [show (a.ID == rid) = false from by simp [hpa]]
          rw [if_neg (show ¬(false = true) from by decide)]
        rw [hstep]
        have hrrest : r ∈ rest := by
          rcases List.mem_cons.mp hr with h | h
          · exact absurd (h ▸ hrid) hpa
          · exact h
        exact ih acc hacc hnd.2 hrrest hrid

theorem setContentTypes_loaded (ext : ExtEnv) (g : File) (c : contentTypes)
    (pn ct : String) (hc : g.ContentTypes = some c) :
    setContentTypes ext g pn ct =
      {g with ContentTypes := some {c with Overrides := c.Overrides ++ [⟨pn, ct⟩]}} := by
  unfold setContentTypes
  rw [contentTypesReader_loaded ext g c hc]

theorem addRels_loaded (ext : ExtEnv) (g : File) (path : String) (r : relationships)
    (rt target tm : String) (h : mapLoad g.Relationships path = some r) :
    addRels ext g path rt target tm =
      (((r.Relationships.length : Int) + 1),
       {g with Relationships := (mapStore g.Relationships path
         ⟨r.Relationships ++ [⟨"rId" ++ toString ((r.Relationships.length : Int) + 1),
           target, rt, tm⟩]⟩)}) := by
  unfold addRels
  rw [relsReader_loaded ext g path r h]
  rfl

theorem setPresentation_update (ext : ExtEnv) (g : File) (p : decodePresentation)
    (sid rid : Int) (hp : g.Presentation = some p) :
    setPresentation ext g sid rid =
      {g with Presentation := some {p with Slides := p.Slides ++ [⟨"rId" ++ toString rid, sid⟩]}} := by
  unfold setPresentation
  rw [presentationReader_loaded ext g p hp]

theorem NewSlide_closed_form (ext : ExtEnv) (f : File) (p : decodePresentation)
    (ct0 : contentTypes) (rootRels : relationships) (r₀ : relationship)
    (prels : relationships)
    (hp : f.Presentation = some p)
    (hct : f.ContentTypes = some ct0)
    (hroot : mapLoad f.Relationships defaultXMLPathRels = some rootRels)
    (hfind : rootRels.Relationships.find?
      (fun rel => rel.relType == SourceRelationshipOfficeDocument) = some r₀)
    (htgt : r₀.Target = "ppt/presentation.xml")
    (hprels : mapLoad f.Relationships "ppt/_rels/presentation.xml.rels" = some prels) :
    NewSlide ext f = (newSlideID p, newSlideResult ext f p ct0 prels) := by
  unfold NewSlide
  rw [presentationReader_loaded ext f p hp]
  dsimp only
  rw [setContentTypes_loaded ext _ ct0
    ("/ppt/slides/_rels/" ++ ("slide" ++ toString (p.Slides.length + 1)) ++ ".xml.rels")
    ContentTypeRelationships (by exact hct)]
  rw [setContentTypes_loaded ext _ _
    ("/ppt/slides/" ++ ("slide" ++ toString (p.Slides.length + 1)) ++ ".xml")
    ContentTypeSlideML (by exact rfl)]
  rw [getPresentationRelsPath_std ext _ rootRels r₀ (by exact hroot) (by exact hfind) htgt]
  dsimp only
  rw [addRels_loaded ext _ _ prels _ _ _ (by exact hprels)]
  dsimp only [setSlide]
  rw [setPresentation_update ext _ p _ _ (by exact hp)]
  rfl

theorem GetSlideIndex_loaded (ext : ExtEnv) (g : File) (p : decodePresentation) (sid : Int)
    (hp : g.Presentation = some p) :
    GetSlideIndex ext g sid = (slideIdxAux sid 0 (p.Slides.map (fun s => s.SlideID)), g) := by
  unfold GetSlideIndex GetSlideList
  rw [presentationReader_loaded ext g p hp]

theorem deleteSlideFromPresentationRels_eval (ext : ExtEnv) (g : File)
    (rootRels : relationships) (r₀ : relationship) (prels : relationships)
    (r : relationship) (rid : String)
    (hroot : mapLoad g.Relationships defaultXMLPathRels = some rootRels)
    (hfind : rootRels.Relationships.find?
      (fun rel => rel.relType == SourceRelationshipOfficeDocument) = some r₀)
    (htgt : r₀.Target = "ppt/presentation.xml")
    (hprels : mapLoad g.Relationships "ppt/_rels/presentation.xml.rels" = some prels)
    (hfr : prels.Relationships.find? (fun u => u.ID == rid) = some r) :
    deleteSlideFromPresentationRels ext g rid =
      (r.Target, {g with Relationships := (mapStore g.Relationships
        "ppt/_rels/presentation.xml.rels"
        ⟨prels.Relationships.eraseP (fun u => u.ID == rid)⟩)}) := by
  unfold deleteSlideFromPresentationRels
  rw [getPresentationRelsPath_std ext g rootRels r₀ hroot hfind htgt]
  dsimp only
  rw [relsReader_loaded ext g _ prels hprels]
  dsimp only
  rw [hfr]

theorem removeContentTypesPart_rel (ext : ExtEnv) (g : File) (c : contentTypes)
    (ctype pn : String) (hc : g.ContentTypes = some c)
    (hsw : strStartsWith pn "/" = false) :
    removeContentTypesPart ext g ctype pn =
      {g with ContentTypes := some {c with Overrides := (c.Overrides.filter
        (fun o => o.PartName ≠ "/ppt/" ++ pn))}} := by
  unfold removeContentTypesPart
  rw [contentTypesReader_loaded ext g c hc, hsw]
  rfl

theorem DeleteSlide_closed_form (ext : ExtEnv) (f : File) (p : decodePresentation)
    (ct0 : contentTypes) (rootRels : relationships) (r₀ : relationship)
    (prels : relationships) (v : decodeSlideID) (r : relationship) (sid : Int) (X : String)
    (hp : f.Presentation = some p)
    (hct : f.ContentTypes = some ct0)
    (hroot : mapLoad f.Relationships defaultXMLPathRels = some rootRels)
    (hfind : rootRels.Relationships.find?
      (fun rel => rel.relType == SourceRelationshipOfficeDocument) = some r₀)
    (htgt : r₀.Target = "ppt/presentation.xml")
    (hprels : mapLoad f.Relationships "ppt/_rels/presentation.xml.rels" = some prels)
    (hv : v ∈ p.Slides) (hvid : v.SlideID = sid)
    (hndS : (p.Slides.map (fun u => u.SlideID)).Nodup)
    (hr : r ∈ prels.Relationships) (hrid : r.ID = v.RelationshipID)
    (hndR : (prels.Relationships.map (fun u => u.ID)).Nodup)
    (hrt : r.Target = "slides/" ++ X)
    (hX : ∀ c ∈ X.data, c ≠ '/' ∧ c ≠ '\\')
    (hXne : X ≠ "") (hXdot : X ≠ ".") (hXdd : X ≠ "..")
    (hcount : f.SlideCount ≠ 1) :
    DeleteSlide ext f sid =
      (none, deleteSlideResult f p ct0 prels sid v.RelationshipID X) := by
  have hmem : sid ∈ p.Slides.map (fun s => s.SlideID) :=
    hvid ▸ List.mem_map_of_mem (fun s => s.SlideID) hv
  have hguard : ¬(f.SlideCount = 1 ∨
      slideIdxAux sid 0 (p.Slides.map (fun s => s.SlideID)) = -1) :=
    not_or.mpr ⟨hcount, slideIdxAux_mem_ne sid _ hmem 0⟩
  have hfv : p.Slides.find? (fun u => u.SlideID == sid) = some v :=
    find_unique_by (fun u => u.SlideID) (fun u => u.SlideID == sid) sid
      (fun u => by simp) p.Slides v hndS hv hvid
  have hfr : prels.Relationships.find? (fun u => u.ID == v.RelationshipID) = some r :=
    find_unique_by (fun u => u.ID) (fun u => u.ID == v.RelationshipID) v.RelationshipID
      (fun u => by simp) prels.Relationships r hndR hr hrid
  have hconsX : ("slides/" ++ X).data = 's':: 'l':: 'i':: 'd':: 'e':: 's':: '/':: X.data := by
    show "slides/".data ++ X.data = _
    rw [show "slides/".data = ['s','l','i','d','e','s','/'] from by decide]
    rfl
  have hcons₂ : ("slides/_rels/" ++ (X ++ ".rels")).data =
      's':: 'l':: 'i':: 'd':: 'e':: 's':: '/':: '_':: 'r':: 'e':: 'l':: 's':: '/':: (X ++ ".rels").data := by
    show "slides/_rels/".data ++ (X ++ ".rels").data = _
    rw [show "slides/_rels/".data =
      ['s','l','i','d','e','s','/','_','r','e','l','s','/'] from by decide]
    rfl
  have hsw1 : strStartsWith ("slides/" ++ X) "/" = false :=
    strStartsWith_slash_false _ 's' _ hconsX (by decide)
  have hsw2 : strStartsWith ("slides/_rels/" ++ (X ++ ".rels")) "/" = false :=
    strStartsWith_slash_false _ 's' _ hcons₂ (by decide)
  have hX' : ∀ c ∈ X.data, c ≠ '/' := fun c hc => (hX c hc).1
  unfold DeleteSlide
  rw [GetSlideIndex_loaded ext f p sid hp]
  dsimp only
  rw [if_neg hguard]
  rw [presentationReader_loaded ext f p hp]
  dsimp only
  rw [getPresentationRelsPath_std ext f rootRels r₀ hroot hfind htgt]
  dsimp only
  rw [relsReader_loaded ext f _ prels hprels]
  dsimp only
  rw [hfv]
  dsimp only
  rw [deleteSlideScan_eval ext v.RelationshipID r
    {f with Presentation := some ⟨p.Slides.eraseP (fun u => u.SlideID == sid)⟩}
    (fun t => getSlidePath_pure ext _ rootRels r₀ t (by exact hroot) (by exact hfind))
    prels.Relationships _ (by exact rfl) hndR hr hrid]
  dsimp only
  rw [hrt]
  rw [getSlidePath_slides ext _ rootRels r₀ X (by exact hroot) (by exact hfind) htgt
    hX hXne hXdot hXdd]
  dsimp only
  rw [goTrimPre_append "ppt/slides/" X]
  rw [deleteSlideFromPresentationRels_eval ext _ rootRels r₀ prels r v.RelationshipID
    (by exact hroot) (by exact hfind) htgt (by exact hprels) hfr]
  dsimp only
  rw [hrt]
  rw [removeContentTypesPart_rel ext _ ct0 _ _ (by exact hct) hsw1]
  dsimp only
  rw [goDir_slides X hX', goBase_slides X hX' hXne, goJoin3_slidesRels X hX' hXne]
  rw [removeContentTypesPart_rel ext _ _ _ _ (by exact rfl) hsw2]
  dsimp only
  rw [strAppend_fold "/ppt/" "slides/" "/ppt/slides/" X (by decide)]
  rw [strAppend_fold "/ppt/" "slides/_rels/" "/ppt/slides/_rels/" (X ++ ".rels") (by decide)]
  rw [hvid]
  dsimp only [deleteSlideResult]

theorem GetSlideList_loaded (ext : ExtEnv) (g : File) (p : decodePresentation)
    (hp : g.Presentation = some p) :
    GetSlideList ext g = (p.Slides.map (fun s => s.SlideID), g) := by
  unfold GetSlideList
  rw [presentationReader_loaded ext g p hp]

/-- C2: four-way consistency of the slide record set.  After `NewSlide`
on a fully-loaded standard-layout state, the new slide part has a
content-type override row, a presentation relationship that resolves to
its path, an entry in the presentation's slide id list, and a cached
slide structure; after `DeleteSlide` of an existing slide (with distinct
slide ids and relationship ids, and more than one slide), the id-list
entry, the relationship, both content-type override rows, the stored
bytes and the cached structure of the deleted slide are all gone. -/
theorem C2_four_way (ext : ExtEnv) (f : File) (p : decodePresentation)
    (ct0 : contentTypes) (rootRels : relationships) (r₀ : relationship)
    (prels : relationships)
    (hp : f.Presentation = some p)
    (hct : f.ContentTypes = some ct0)
    (hroot : mapLoad f.Relationships defaultXMLPathRels = some rootRels)
    (hfind : rootRels.Relationships.find?
      (fun rel => rel.relType == SourceRelationshipOfficeDocument) = some r₀)
    (htgt : r₀.Target = "ppt/presentation.xml")
    (hprels : mapLoad f.Relationships "ppt/_rels/presentation.xml.rels" = some prels) :
    (∃ ct₂, (NewSlide ext f).2.ContentTypes = some ct₂ ∧
      (⟨"/ppt/slides/" ++ ("slide" ++ toString (p.Slides.length + 1)) ++ ".xml",
        ContentTypeSlideML⟩ : contentTypeOverride) ∈ ct₂.Overrides) ∧
    (∃ prels₂, mapLoad (NewSlide ext f).2.Relationships
        "ppt/_rels/presentation.xml.rels" = some prels₂ ∧
      ∃ rel ∈ prels₂.Relationships, rel.relType = SourceRelationshipSlide ∧
        (getSlidePath ext (NewSlide ext f).2 rel.Target).1 =
          "ppt/slides/" ++ (("slide" ++ toString (p.Slides.length + 1)) ++ ".xml")) ∧
    ((NewSlide ext f).1 ∈ (GetSlideList ext (NewSlide ext f).2).1) ∧
    (mapLoad (NewSlide ext f).2.Slide
      ("ppt/slides/slide" ++ toString (p.Slides.length + 1) ++ ".xml") =
      some ext.templateSlideDecoded) ∧
    (∀ (sid : Int) (v : decodeSlideID) (r : relationship) (X : String),
      v ∈ p.Slides → v.SlideID = sid →
      (p.Slides.map (fun u => u.SlideID)).Nodup →
      r ∈ prels.Relationships → r.ID = v.RelationshipID →
      (prels.Relationships.map (fun u => u.ID)).Nodup →
      r.Target = "slides/" ++ X →
      (∀ c ∈ X.data, c ≠ '/' ∧ c ≠ '\\') → X ≠ "" → X ≠ "." → X ≠ ".." →
      f.SlideCount ≠ 1 →
      (DeleteSlide ext f sid).1 = none ∧
      sid ∉ (GetSlideList ext (DeleteSlide ext f sid).2).1 ∧
      (∀ prels₁, mapLoad (DeleteSlide ext f sid).2.Relationships
          "ppt/_rels/presentation.xml.rels" = some prels₁ →
        ∀ u ∈ prels₁.Relationships, u.ID ≠ v.RelationshipID) ∧
      (∀ ct₁, (DeleteSlide ext f sid).2.ContentTypes = some ct₁ →
        ∀ o ∈ ct₁.Overrides, o.PartName ≠ "/ppt/slides/" ++ X ∧
          o.PartName ≠ "/ppt/slides/_rels/" ++ (X ++ ".rels")) ∧
      mapLoad (DeleteSlide ext f sid).2.Pkg ("ppt/slides/" ++ X) = none ∧
      mapLoad (DeleteSlide ext f sid).2.Slide ("ppt/slides/" ++ X) = none ∧
      mapLoad (DeleteSlide ext f sid).2.slideMap sid = none) := by
  obtain ⟨hXf, hXne', hXdot', hXdd'⟩ := slideFileX_facts (p.Slides.length + 1)
  have hNS := NewSlide_closed_form ext f p ct0 rootRels r₀ prels hp hct hroot hfind htgt hprels
  refine ⟨?_, ?_, ?_, ?_, ?_⟩
  · rw [hNS]
    dsimp only [newSlideResult]
    refine ⟨_, rfl, ?_⟩
    simp
  · rw [hNS]
    dsimp only [newSlideResult]
    refine ⟨_, mapLoad_mapStore_self _ _ _, ?_⟩
    refine ⟨⟨"rId" ++ toString ((prels.Relationships.length : Int) + 1),
      "slides/" ++ ("slide" ++ toString (p.Slides.length + 1)) ++ ".xml",
      SourceRelationshipSlide, ""⟩, by simp, rfl, ?_⟩
    dsimp only
    have hre : ("slides/" ++ ("slide" ++ toString (p.Slides.length + 1))) ++ ".xml"
        = "slides/" ++ (("slide" ++ toString (p.Slides.length + 1)) ++ ".xml") := by
      apply String.ext
      show ("slides/".data ++ _) ++ _ = "slides/".data ++ (_ ++ _)
      rw [List.append_assoc]
    rw [hre]
    rw [getSlidePath_slides ext _ rootRels r₀
      (("slide" ++ toString (p.Slides.length + 1)) ++ ".xml")
      (by dsimp only
          rw [mapLoad_mapStore_ne _ _ _ _ (by decide)]
          exact hroot)
      (by exact hfind) htgt hXf hXne' hXdot' hXdd']
  · rw [hNS]
    dsimp only [newSlideResult]
    rw [GetSlideList_loaded ext _ _ (by exact rfl)]
    dsimp only
    simp
  · rw [hNS]
    dsimp only [newSlideResult]
    exact mapLoad_mapStore_self _ _ _
  · intro sid v r X hv hvid hndS hr hrid hndR hrt hXd hXne hXdot hXdd hcount
    have hD := DeleteSlide_closed_form ext f p ct0 rootRels r₀ prels v r sid X hp hct
      hroot hfind htgt hprels hv hvid hndS hr hrid hndR hrt hXd hXne hXdot hXdd hcount
    have hrelsdata : ((("ppt/slides/_rels/" ++ X) ++ ".rels").data) =
        'p':: 'p':: 't':: '/':: 's':: 'l':: 'i':: 'd':: 'e':: 's':: '/':: '_':: 'r':: 'e':: 'l':: 's':: '/'::
          (X.data ++ ['.','r','e','l','s']) := by
      show ("ppt/slides/_rels/".data ++ X.data) ++ ".rels".data = _
      rw [show "ppt/slides/_rels/".data =
        ['p','p','t','/','s','l','i','d','e','s','/','_','r','e','l','s','/'] from by decide,
        show ".rels".data = ['.','r','e','l','s'] from by decide, List.append_assoc]
      rfl
    have hne₁ : ("ppt/_rels/presentation.xml.rels" : String) ≠
        ("ppt/slides/_rels/" ++ X) ++ ".rels" := by
      intro h
      have h₁ := congrArg String.data h
      rw [hrelsdata,
        show ("ppt/_rels/presentation.xml.rels" : String).data =
          ['p','p','t','/','_','r','e','l','s','/','p','r','e','s','e','n','t','a','t','i',
           'o','n','.','x','m','l','.','r','e','l','s'] from by decide] at h₁
      simp at h₁
    have hne₂ : ("ppt/slides/" ++ X) ≠ ("ppt/slides/_rels/" ++ X) ++ ".rels" := by
      intro h
      have h₁ := congrArg (fun s => s.data.length) h
      dsimp only at h₁
      rw [show ("ppt/slides/" ++ X).data = "ppt/slides/".data ++ X.data from rfl,
        List.length_append, show "ppt/slides/".data.length = 11 from by decide,
        hrelsdata] at h₁
      simp [List.length_append] at h₁
      omega
    rw [hD]
    dsimp only [deleteSlideResult]
    refine ⟨rfl, ?_, ?_, ?_, ?_, ?_, ?_⟩
    · rw [GetSlideList_loaded ext _ _ (by exact rfl)]
      dsimp only
      intro hmem
      obtain ⟨u, hu, huid⟩ := List.mem_map.mp hmem
      exact eraseP_key_gone (fun w => w.SlideID) (fun w => w.SlideID == sid) sid
        (fun w => by simp) p.Slides hndS u hu huid
    · intro prels₁ hload
      rw [mapLoad_mapDelete_ne _ _ _ hne₁, mapLoad_mapStore_self] at hload
      injection hload with h
      subst h
      intro u hu
      exact eraseP_key_gone (fun w => w.ID) (fun w => w.ID == v.RelationshipID)
        v.RelationshipID (fun w => by simp) prels.Relationships hndR u hu
    · intro ct₁ hload
      injection hload with h
      subst h
      intro o ho
      have h₂ := List.mem_filter.mp ho
      have h₁ := List.mem_filter.mp h₂.1
      constructor
      · simpa using h₁.2
      · simpa using h₂.2
    · rw [mapLoad_mapDelete_ne _ _ _ hne₂]
      exact mapLoad_mapDelete_self _ _
    · exact mapLoad_mapDelete_self _ _
    · exact mapLoad_mapDelete_self _ _

theorem C2_four_way_witness :
    (exC1File.Presentation = some exC2Pres ∧
     exC1File.ContentTypes = some exC2CT ∧
     mapLoad exC1File.Relationships defaultXMLPathRels = some exRootRels ∧
     exRootRels.Relationships.find?
       (fun rel => rel.relType == SourceRelationshipOfficeDocument) = some exC2R0 ∧
     exC2R0.Target = "ppt/presentation.xml" ∧
     mapLoad exC1File.Relationships "ppt/_rels/presentation.xml.rels" = some exPresRels) ∧
    ((∃ ct₂, (NewSlide extUnit exC1File).2.ContentTypes = some ct₂ ∧
      (⟨"/ppt/slides/" ++ ("slide" ++ toString (exC2Pres.Slides.length + 1)) ++ ".xml",
        ContentTypeSlideML⟩ : contentTypeOverride) ∈ ct₂.Overrides) ∧
    (∃ prels₂, mapLoad (NewSlide extUnit exC1File).2.Relationships
        "ppt/_rels/presentation.xml.rels" = some prels₂ ∧
      ∃ rel ∈ prels₂.Relationships, rel.relType = SourceRelationshipSlide ∧
        (getSlidePath extUnit (NewSlide extUnit exC1File).2 rel.Target).1 =
          "ppt/slides/" ++ (("slide" ++ toString (exC2Pres.Slides.length + 1)) ++ ".xml")) ∧
    ((NewSlide extUnit exC1File).1 ∈
      (GetSlideList extUnit (NewSlide extUnit exC1File).2).1) ∧
    (mapLoad (NewSlide extUnit exC1File).2.Slide
      ("ppt/slides/slide" ++ toString (exC2Pres.Slides.length + 1) ++ ".xml") =
      some extUnit.templateSlideDecoded) ∧
    (∀ (sid : Int) (v : decodeSlideID) (r : relationship) (X : String),
      v ∈ exC2Pres.Slides → v.SlideID = sid →
      (exC2Pres.Slides.map (fun u => u.SlideID)).Nodup →
      r ∈ exPresRels.Relationships → r.ID = v.RelationshipID →
      (exPresRels.Relationships.map (fun u => u.ID)).Nodup →
      r.Target = "slides/" ++ X →
      (∀ c ∈ X.data, c ≠ '/' ∧ c ≠ '\\') → X ≠ "" → X ≠ "." → X ≠ ".." →
      exC1File.SlideCount ≠ 1 →
      (DeleteSlide extUnit exC1File sid).1 = none ∧
      sid ∉ (GetSlideList extUnit (DeleteSlide extUnit exC1File sid).2).1 ∧
      (∀ prels₁, mapLoad (DeleteSlide extUnit exC1File sid).2.Relationships
          "ppt/_rels/presentation.xml.rels" = some prels₁ →
        ∀ u ∈ prels₁.Relationships, u.ID ≠ v.RelationshipID) ∧
      (∀ ct₁, (DeleteSlide extUnit exC1File sid).2.ContentTypes = some ct₁ →
        ∀ o ∈ ct₁.Overrides, o.PartName ≠ "/ppt/slides/" ++ X ∧
          o.PartName ≠ "/ppt/slides/_rels/" ++ (X ++ ".rels")) ∧
      mapLoad (DeleteSlide extUnit exC1File sid).2.Pkg ("ppt/slides/" ++ X) = none ∧
      mapLoad (DeleteSlide extUnit exC1File sid).2.Slide ("ppt/slides/" ++ X) = none ∧
      mapLoad (DeleteSlide extUnit exC1File sid).2.slideMap sid = none)) :=
  ⟨⟨rfl, rfl, by decide, by decide, rfl, by decide⟩,
   C2_four_way extUnit exC1File exC2Pres exC2CT exRootRels exC2R0 exPresRels rfl rfl
     (by decide) (by decide) rfl (by decide)⟩
